import Mathlib

/-!
Verification development for the ENS agent-registry record subsystem
(`ens-verifier` module, its call site `Agent.verifyENSName`, and the test
encoder `encodeAgentRegistryRecord`).

JS strings are sequences of UTF-16 code units; we model them as lists of
natural-number code points (all data handled by this subsystem is ASCII).
Arbitrary-precision JS bigints become `Int`/`Nat`; functions that can throw
return `Except`.
-/

deriving instance DecidableEq for Except

namespace AgentEns

/-- A JS string: its sequence of UTF-16 code units. -/
abbrev JSString := List Nat

/-- Code units of a Lean string literal, for embedding JS string literals. -/
def jsOfString (s : String) : JSString := s.data.map Char.toNat

/-- JS `parseInt` leading-whitespace set (ECMA-262 WhiteSpace and
LineTerminator code points). -/
def isJsWhitespaceCode (c : Nat) : Bool :=
  c == 9 || c == 10 || c == 11 || c == 12 || c == 13 || c == 32 ||
  c == 160 || c == 8232 || c == 8233 || c == 65279

/-- ASCII lowering, as JS `toLowerCase` acts on the code points appearing in
this subsystem (hex digits, letters, punctuation). -/
def toLowerCode (c : Nat) : Nat := if 65 ≤ c ∧ c ≤ 90 then c + 32 else c

/-- ASCII raising, as JS `toUpperCase` acts on the code points appearing in
this subsystem. -/
def toUpperCode (c : Nat) : Nat := if 97 ≤ c ∧ c ≤ 122 then c - 32 else c

/-- `[0-9a-fA-F]`. -/
def isHexDigitCode (c : Nat) : Bool :=
  decide ((48 ≤ c ∧ c ≤ 57) ∨ (97 ≤ c ∧ c ≤ 102) ∨ (65 ≤ c ∧ c ≤ 70))

/-- `[0-9a-f]`. -/
def isLowerHexCode (c : Nat) : Bool :=
  decide ((48 ≤ c ∧ c ≤ 57) ∨ (97 ≤ c ∧ c ≤ 102))

/-- Numeric value of a hex digit code point. -/
def hexVal (c : Nat) : Nat :=
  if c ≤ 57 then c - 48 else if c ≤ 70 then c - 55 else c - 87

/-- Lowercase hex digit code point for a value below 16. -/
def hexCharCode (v : Nat) : Nat := if v < 10 then 48 + v else 87 + v

/-! ## Keccak-256 (the hash underlying EIP-55 checksums in ethers) -/

/-- 64-bit left rotation on naturals below `2 ^ 64`. -/
def rotl64 (x n : Nat) : Nat := ((x <<< n) ||| (x >>> (64 - n))) % (2 ^ 64)

/-- Keccak-f[1600] round constants (the usual table, written in decimal:
RC 0 is 1 = 0x1, RC 1 is 32898 = 0x8082, and so on through
RC 23 = 0x8000000080008008). -/
def keccakRC : List Nat :=
  [1, 32898, 9223372036854808714, 9223372039002292224] ++
  [32907, 2147483649, 9223372039002292353, 9223372036854808585] ++
  [138, 136, 2147516425, 2147483658] ++
  [2147516555, 9223372036854775947, 9223372036854808713, 9223372036854808579] ++
  [9223372036854808578, 9223372036854775936, 32778, 9223372039002259466] ++
  [9223372039002292353, 9223372036854808704, 2147483649, 9223372039002292232]

/-- Keccak rho rotation offsets, indexed by `x + 5 * y` (row by row). -/
def keccakRho : List Nat :=
  [0, 1, 62, 28, 27] ++ [36, 44, 6, 55, 20] ++ [3, 10, 43, 25, 39] ++
  [41, 45, 15, 21, 8] ++ [18, 2, 61, 56, 14]

/-- One Keccak-f round (theta, rho, pi, chi, iota) on a 25-lane state. -/
def keccakRound (s : List Nat) (rc : Nat) : List Nat :=
  let C := (List.range 5).map fun x =>
    Nat.xor (s.getD x 0) (Nat.xor (s.getD (x + 5) 0)
      (Nat.xor (s.getD (x + 10) 0) (Nat.xor (s.getD (x + 15) 0) (s.getD (x + 20) 0))))
  let D := (List.range 5).map fun x =>
    Nat.xor (C.getD ((x + 4) % 5) 0) (rotl64 (C.getD ((x + 1) % 5) 0) 1)
  let A1 := (List.range 25).map fun i => Nat.xor (s.getD i 0) (D.getD (i % 5) 0)
  let B := (List.range 25).map fun t =>
    let sx := (t % 5 + 3 * (t / 5)) % 5
    let sy := t % 5
    rotl64 (A1.getD (sx + 5 * sy) 0) (keccakRho.getD (sx + 5 * sy) 0)
  let A2 := (List.range 25).map fun t =>
    Nat.xor (B.getD t 0)
      (Nat.land (Nat.xor (B.getD ((t % 5 + 1) % 5 + 5 * (t / 5)) 0) (2 ^ 64 - 1))
        (B.getD ((t % 5 + 2) % 5 + 5 * (t / 5)) 0))
  match A2 with
  | a0 :: rest => Nat.xor a0 rc :: rest
  | [] => []

/-- The full Keccak-f[1600] permutation. -/
def keccakF (s : List Nat) : List Nat := keccakRC.foldl keccakRound s

/-- Little-endian value of a byte list. -/
def leVal (bs : List Nat) : Nat := bs.foldr (fun b a => a * 256 + b) 0

/-- Keccak-256 of a byte sequence (original Keccak padding, rate 1088). -/
def keccak256 (msg : List Nat) : List Nat :=
  let q := 136 - msg.length % 136
  let padded :=
    if q = 1 then msg ++ [0x81]
    else msg ++ 0x01 :: (List.replicate (q - 2) 0 ++ [0x80])
  let lanes := fun (chunk : List Nat) =>
    (List.range 17).map fun j => leVal ((chunk.drop (8 * j)).take 8)
  let absorb := fun (st chunk : List Nat) =>
    keccakF ((List.range 25).map fun i => Nat.xor (st.getD i 0) ((lanes chunk).getD i 0))
  let chunks := (List.range (padded.length / 136)).map fun i =>
    (padded.drop (136 * i)).take 136
  let final := chunks.foldl absorb (List.replicate 25 0)
  (List.range 32).map fun i => ((final.getD (i / 8) 0) >>> (8 * (i % 8))) % 256

/-! ## ethers.js address and byte helpers used by the subsystem -/

/-- ethers `getChecksumAddress`: lowercase the 42-char address text, hash the
ASCII codes of its 40 hex digits with keccak-256, and uppercase each digit
whose corresponding hash nibble is at least 8. -/
def getChecksumAddress (address : JSString) : JSString :=
  let lower := address.map toLowerCode
  let chars := lower.drop 2
  let hashed := keccak256 chars
  let cased := (List.range 40).map fun i =>
    let h := hashed.getD (i / 2) 0
    let nib := if i % 2 == 0 then h / 16 else h % 16
    let c := chars.getD i 0
    if 8 ≤ nib then toUpperCode c else c
  48 :: 120 :: cased

/-- The ethers `getAddress` entry test, regex `(0x)?[0-9a-fA-F]{40}` anchored
at both ends. -/
def matchesAddrRegex (d : JSString) : Bool :=
  (d.length == 40 && d.all isHexDigitCode) ||
  (d.length == 42 && decide (d.take 2 = [48, 120]) && (d.drop 2).all isHexDigitCode)

/-- Whether the string has an uppercase hex letter (regex class `[A-F]`). -/
def hasUpperHexLetter (d : JSString) : Bool := d.any fun c => decide (65 ≤ c ∧ c ≤ 70)

/-- Whether the string has a lowercase hex letter (regex class `[a-f]`). -/
def hasLowerHexLetter (d : JSString) : Bool := d.any fun c => decide (97 ≤ c ∧ c ≤ 102)

/-- ethers `getAddress`: validate the hex shape, checksum-normalize, and for a
mixed-case input require the casing to equal its checksum. The ICAP (`XE…`)
branch of ethers is out of scope here: the spec restricts this subsystem to
0x-prefixed 20-byte EVM address text. -/
def getAddress (address : JSString) : Except String JSString :=
  if matchesAddrRegex address then
    let addr2 := if address.take 2 = [48, 120] then address else 48 :: 120 :: address
    let result := getChecksumAddress addr2
    if hasUpperHexLetter addr2 && hasLowerHexLetter addr2 && decide (result ≠ addr2) then
      Except.error "bad address checksum"
    else
      Except.ok result
  else
    Except.error "invalid address"

/-- Consecutive hex-digit pairs to bytes; fails on odd length or a non-hex
character (the shape ethers `getBytes` demands of a hex string). -/
def hexPairsToBytes : List Nat → Option (List Nat)
  | [] => some []
  | c1 :: c2 :: rest =>
    if isHexDigitCode c1 && isHexDigitCode c2 then
      (hexPairsToBytes rest).map fun bs => (hexVal c1 * 16 + hexVal c2) :: bs
    else none
  | [_] => none

/-- ethers `getBytes` on a string: requires `0x` followed by hex-digit pairs. -/
def jsGetBytes (s : JSString) : Except String (List Nat) :=
  if s.take 2 = [48, 120] then
    match hexPairsToBytes (s.drop 2) with
    | some bs => Except.ok bs
    | none => Except.error "invalid BytesLike value"
  else Except.error "invalid BytesLike value"

/-- Hex digit pair codes of each byte, lowercase. -/
def bytesToHexChars (bs : List Nat) : JSString :=
  bs.flatMap fun b => [hexCharCode (b / 16), hexCharCode (b % 16)]

/-- ethers `hexlify`: `0x` plus lowercase hex of each byte. -/
def jsHexlify (bs : List Nat) : JSString := 48 :: 120 :: bytesToHexChars bs

/-- JS `BigInt` applied to a `0x…` hex string of the shape `jsHexlify`
produces (always well-formed there, so the throwing cases of `BigInt` are
unreachable and mapped to 0). -/
def jsBigIntOfHexText (s : JSString) : Int :=
  if s.take 2 = [48, 120] then
    (((s.drop 2).foldl (fun a c => a * 16 + hexVal c) 0 : Nat) : Int)
  else 0

/-- Minimal big-endian hex digits of a natural, empty for 0; fuel-recursive so
that it evaluates by kernel reduction. -/
def natHexCharsF : Nat → Nat → List Nat
  | 0, _ => []
  | fuel + 1, n =>
    if n = 0 then [] else natHexCharsF fuel (n / 16) ++ [hexCharCode (n % 16)]

/-- Minimal big-endian hex digits of a natural (empty for 0). -/
def natHexChars (n : Nat) : List Nat := natHexCharsF n n

/-- JS `Number.prototype.toString(16)` / `BigInt.prototype.toString(16)` for a
non-negative value: minimal lowercase hex, a single `0` for zero. -/
def toString16Chars (n : Nat) : JSString := if n = 0 then [48] else natHexChars n

/-- ethers `toBeHex` (no width): `0x` plus minimal hex padded to even length;
throws on a negative value (`getUint`). -/
def toBeHex (v : Int) : Except String JSString :=
  if v < 0 then Except.error "unsigned value cannot be negative"
  else
    let s := toString16Chars v.toNat
    Except.ok (48 :: 120 :: (if s.length % 2 = 1 then 48 :: s else s))

/-- JS `padStart(2, "0")`. -/
def padStart2 (s : JSString) : JSString := List.replicate (2 - s.length) 48 ++ s

/-- JS `parseInt(s, 16)`: trim leading whitespace, take an optional sign,
strip an optional `0x`/`0X`, then parse the longest hex-digit prefix;
`none` models `NaN`. -/
def jsParseInt16 (s : JSString) : Option Int :=
  let t := s.dropWhile isJsWhitespaceCode
  let signed : Int × JSString :=
    match t with
    | 43 :: rest => (1, rest)
    | 45 :: rest => (-1, rest)
    | _ => (1, t)
  let u := if signed.2.take 2 = [48, 120] ∨ signed.2.take 2 = [48, 88]
    then signed.2.drop 2 else signed.2
  let ds := u.takeWhile isHexDigitCode
  if ds = [] then none
  else some (signed.1 * ((ds.foldl (fun a c => a * 16 + hexVal c) 0 : Nat) : Int))

/-! ## The ens-verifier module -/

/-- `CAIP_NAMESPACE_CODES`: the closed namespace table, holding only
`eip155 ↦ 0x0000`; lookup of any other tag is `undefined`. -/
def CAIP_NAMESPACE_CODES (ns : JSString) : Option Nat :=
  if ns = jsOfString "eip155" then some 0 else none

/-- Decoded representation of the ENS registry record. -/
structure AgentRegistryRecord where
  version : Nat
  chainType : Nat
  chainReference : Int
  address : JSString
  agentId : Int
deriving DecidableEq, Repr

/-- Modelled from the spec: the external interoperable-address builder
(`InteropAddressProvider.buildFromPayload` of the npm package
`interop-addresses`, not part of this repository). Per the spec, it renders
the ERC-7930 chain-only envelope: the fixed version 1 (two bytes), the
2-byte chain-type code for the namespace, the chain-reference bytes taken
from the supplied hex string behind their one-byte length field (ERC-7930
bounds the chain reference at 255 bytes, so longer references are a usage
error), and an explicit zero-length address field, as a `0x`-prefixed hex
string. -/
def interopBuildFromPayload (chainType : JSString) (chainReference : JSString) :
    Except String JSString :=
  match CAIP_NAMESPACE_CODES chainType with
  | none => Except.error "unknown chain type"
  | some code =>
    match jsGetBytes chainReference with
    | Except.error e => Except.error e
    | Except.ok refBytes =>
      if 255 < refBytes.length then Except.error "chain reference too long"
      else
        Except.ok (jsHexlify
          ([0x00, 0x01, code / 256, code % 256, refBytes.length] ++ refBytes ++ [0x00]))

/-- Encode the ERC-7930 chain identifier (no address) as lowercase hex
without leading 0x. -/
def encode7930ChainIdentifierHex (chainId : Int) (ns : JSString) :
    Except String JSString :=
  if chainId < 0 then Except.error "Chain reference must be non-negative"
  else if (CAIP_NAMESPACE_CODES ns).isNone then
    Except.error "Unsupported CAIP namespace"
  else
    match toBeHex chainId with
    | Except.error e => Except.error e
    | Except.ok hex =>
      match interopBuildFromPayload ns (hex.map toLowerCode) with
      | Except.error e => Except.error e
      | Except.ok payload => Except.ok ((payload.drop 2).map toLowerCode)

/-- Build key: `agent-registry:<hex 7930 chain id>` (EVM only). -/
def buildAgentRegistryRecordKey (chainId : Int) (ns : JSString) :
    Except String JSString :=
  if (CAIP_NAMESPACE_CODES ns).isNone then
    Except.error "Unsupported CAIP namespace"
  else
    match encode7930ChainIdentifierHex chainId ns with
    | Except.error e => Except.error e
    | Except.ok chainIdentifierHex =>
      Except.ok (jsOfString "agent-registry:" ++ chainIdentifierHex)

/-- An ENS resolver capability: `getText` may throw, or resolve to a text
value or null. -/
structure Resolver where
  getText : JSString → Except String (Option JSString)

/-- A name-resolution provider capability: `getResolver` may throw, or
resolve to a resolver or null. -/
structure Provider where
  getResolver : JSString → Except String (Option Resolver)

/-- Resolve the raw text record for the given ENS name and record key.
Returns null if missing or if the resolver lookup fails. -/
def fetchAgentRegistryRecord (provider : Provider) (ensName recordKey : JSString) :
    Option JSString :=
  let normalizedKey := recordKey.map toLowerCode
  match provider.getResolver ensName with
  | Except.error _ => none
  | Except.ok none => none
  | Except.ok (some resolver) =>
    match resolver.getText normalizedKey with
    | Except.error _ => none
    | Except.ok text => text

/-- Decode value text `<EIP55 address><agentIdLen><agentId>`, validating at
each stage exactly as the source does. -/
def decodeAgentRegistryRecord (valueHex : JSString) : Except String AgentRegistryRecord :=
  if ¬ valueHex.take 2 = [48, 120] then
    Except.error "CAIP-350 segment must start with 0x"
  else if valueHex.length < 44 then
    Except.error "Agent registry record value too short"
  else
    let addressText := valueHex.take 42
    let agentIdLengthHex := (valueHex.drop 42).take 2
    match jsParseInt16 agentIdLengthHex with
    | none => Except.error "Invalid agent ID length"
    | some agentIdLength =>
      if agentIdLength < 0 then Except.error "Invalid agent ID length"
      else
        let agentIdHex := (valueHex.drop 44).map toLowerCode
        match jsGetBytes (48 :: 120 :: agentIdHex) with
        | Except.error e => Except.error e
        | Except.ok agentIdBytes =>
          if ¬ (agentIdBytes.length : Int) = agentIdLength then
            Except.error "Agent ID length does not match payload"
          else
            let agentId : Int :=
              if agentIdBytes.length = 0 then 0
              else jsBigIntOfHexText (jsHexlify agentIdBytes)
            match getAddress addressText with
            | Except.error e => Except.error e
            | Except.ok normalizedAddress =>
              Except.ok
                { version := 1, chainType := 0, chainReference := 0,
                  address := normalizedAddress, agentId := agentId }

/-- Load and decode an ENS agent-registry record for a specific chain:
build the key, fetch the raw value, decode it, and inject the chain id; a
falsy value or a decode failure yields null. -/
def loadAgentRegistryRecord (provider : Provider) (ensName : JSString)
    (chainId : Int) (ns : JSString) : Except String (Option AgentRegistryRecord) :=
  match buildAgentRegistryRecordKey chainId ns with
  | Except.error e => Except.error e
  | Except.ok recordKey =>
    match fetchAgentRegistryRecord provider ensName recordKey with
    | none => Except.ok none
    | some value =>
      if value = [] then Except.ok none
      else
        match decodeAgentRegistryRecord value with
        | Except.error _ => Except.ok none
        | Except.ok decoded =>
          Except.ok (some { decoded with chainReference := chainId })

/-- Expected agent data handed to the matcher. -/
structure ExpectedAgent where
  chainId : Int
  registryAddress : JSString
  agentId : Int

/-- Compare a decoded record against expected agent data (EVM only); the
checksum normalization of the expected address can throw. -/
def recordMatchesAgent (record : AgentRegistryRecord) (expected : ExpectedAgent) :
    Except String Bool :=
  if record.version ≠ 1 ∨ record.chainType ≠ 0 then Except.ok false
  else if record.chainReference ≠ expected.chainId then Except.ok false
  else
    match getAddress expected.registryAddress with
    | Except.error e => Except.error e
    | Except.ok a =>
      if a ≠ record.address then Except.ok false
      else if record.agentId ≠ expected.agentId then Except.ok false
      else Except.ok true

/-- Modelled from the spec: `parseAgentId` (`src/utils/id-format.ts`, not in
the provided sources) turns a composite identifier of the form
`<chainId>:<tokenId>` into its two integer parts, throwing on any other
shape. Both parts are decimal digit strings, hence non-negative. -/
def parseAgentId (s : JSString) : Except String (Int × Int) :=
  let chainPart := s.takeWhile fun c => decide (48 ≤ c ∧ c ≤ 57)
  let rest := s.drop chainPart.length
  match rest with
  | 58 :: tokenPart =>
    if chainPart ≠ [] ∧ tokenPart ≠ [] ∧
        tokenPart.all (fun c => decide (48 ≤ c ∧ c ≤ 57)) then
      Except.ok
        (((chainPart.foldl (fun a c => a * 10 + (c - 48)) 0 : Nat) : Int),
         ((tokenPart.foldl (fun a c => a * 10 + (c - 48)) 0 : Nat) : Int))
    else Except.error "invalid agent id"
  | _ => Except.error "invalid agent id"

/-- The SDK collaborators `Agent.verifyENSName` consults: the web3 provider
and the identity-registry address lookup (which may throw). -/
structure SDKWorld where
  provider : Provider
  registryAddress : Except String JSString

/-- The agent state `Agent.verifyENSName` reads: the ENS endpoint value and
the stored composite agent id. -/
structure AgentState where
  ensEndpoint : Option JSString
  agentId : Option JSString

/-- `Agent.verifyENSName`: fail fast on missing/unparsable identity data,
load the record for the agent's chain, fetch the expected registry address
(catching only that lookup), and run the matcher. The second component
records whether the registry-address lookup was invoked during the call. -/
def verifyENSName (sdk : SDKWorld) (st : AgentState) : Except String Bool × Bool :=
  match st.ensEndpoint, st.agentId with
  | some ensName, some agentIdStr =>
    if ensName = [] ∨ agentIdStr = [] then (Except.ok false, false)
    else
      match parseAgentId agentIdStr with
      | Except.error _ => (Except.ok false, false)
      | Except.ok (chainId, tokenId) =>
        match loadAgentRegistryRecord sdk.provider ensName chainId (jsOfString "eip155") with
        | Except.error e => (Except.error e, false)
        | Except.ok none => (Except.ok false, false)
        | Except.ok (some record) =>
          match sdk.registryAddress with
          | Except.error _ => (Except.ok false, true)
          | Except.ok registryAddress =>
            (recordMatchesAgent record
              { chainId := chainId, registryAddress := registryAddress,
                agentId := tokenId }, true)
  | _, _ => (Except.ok false, false)

/-- The test helper encoder: `<EIP55 address><len(2 hex)><idHex>`. -/
def encodeAgentRegistryRecord (registryAddress : JSString) (agentId : Int) :
    Except String JSString :=
  match getAddress registryAddress with
  | Except.error e => Except.error e
  | Except.ok addressText =>
    match toBeHex agentId with
    | Except.error e => Except.error e
    | Except.ok hex =>
      match jsGetBytes hex with
      | Except.error e => Except.error e
      | Except.ok agentIdBytes =>
        let agentIdHex := ((jsHexlify agentIdBytes).drop 2).map toLowerCode
        let agentIdLengthHex := padStart2 (toString16Chars agentIdBytes.length)
        Except.ok (addressText ++ agentIdLengthHex ++ agentIdHex)

/-! ## Reference functions used to state the claims -/

/-- Minimal big-endian byte encoding of a natural number (empty for 0);
fuel-recursive so that it evaluates by kernel reduction. -/
def natBeBytesF : Nat → Nat → List Nat
  | 0, _ => []
  | fuel + 1, n =>
    if n = 0 then [] else natBeBytesF fuel (n / 256) ++ [n % 256]

/-- Minimal big-endian byte encoding of a natural number (empty for 0). -/
def natBeBytes (n : Nat) : List Nat := natBeBytesF n n

/-- Byte count of the minimal big-endian encoding (0 for the value 0). -/
def minBeByteLen (n : Nat) : Nat := (natBeBytes n).length

/-- Big-endian value of a byte list. -/
def beVal (bs : List Nat) : Nat := bs.foldl (fun a b => a * 256 + b) 0

/-- The bytes `ethers.getBytes (ethers.toBeHex n)` yields: one zero byte for
0, otherwise the minimal big-endian encoding. -/
def beBytesZ (n : Nat) : List Nat := if n = 0 then [0] else natBeBytes n

/-- The length-field slices the decoder rejects with the invalid-length
error: those JS `parseInt` semantics turn into `NaN` or a negative number. -/
def badLenSlice (s : JSString) : Bool :=
  match jsParseInt16 s with
  | none => true
  | some k => decide (k < 0)

/-! ## Character-level facts -/

theorem isLowerHex_toLowerCode {c : Nat} (h : isHexDigitCode c = true) :
    isLowerHexCode (toLowerCode c) = true := by
  simp only [isHexDigitCode, decide_eq_true_eq] at h
  simp only [isLowerHexCode, toLowerCode, decide_eq_true_eq]
  split <;> omega

theorem isHex_of_isLowerHex {c : Nat} (h : isLowerHexCode c = true) :
    isHexDigitCode c = true := by
  simp only [isLowerHexCode, decide_eq_true_eq] at h
  simp only [isHexDigitCode, decide_eq_true_eq]
  omega

theorem toLowerCode_toUpperCode_of_lowerHex {c : Nat} (h : isLowerHexCode c = true) :
    toLowerCode (toUpperCode c) = c := by
  simp only [isLowerHexCode, decide_eq_true_eq] at h
  simp only [toUpperCode, toLowerCode]
  split <;> split <;> omega

theorem toLowerCode_of_lowerHex {c : Nat} (h : isLowerHexCode c = true) :
    toLowerCode c = c := by
  simp only [isLowerHexCode, decide_eq_true_eq] at h
  simp only [toLowerCode]
  split <;> omega

theorem isHex_toUpperCode_of_lowerHex {c : Nat} (h : isLowerHexCode c = true) :
    isHexDigitCode (toUpperCode c) = true := by
  simp only [isLowerHexCode, decide_eq_true_eq] at h
  simp only [isHexDigitCode, toUpperCode, decide_eq_true_eq]
  split <;> omega

theorem isHex_toUpperCode {c : Nat} (h : isHexDigitCode c = true) :
    isHexDigitCode (toUpperCode c) = true := by
  simp only [isHexDigitCode, decide_eq_true_eq] at h ⊢
  simp only [toUpperCode]
  split <;> omega

theorem toLowerCode_toUpperCode_of_hex {c : Nat} (h : isHexDigitCode c = true) :
    toLowerCode (toUpperCode c) = toLowerCode c := by
  simp only [isHexDigitCode, decide_eq_true_eq] at h
  have hlo : 48 ≤ c := by omega
  have hhi : c ≤ 102 := by omega
  interval_cases c <;> decide

theorem toLowerCode_toLowerCode (c : Nat) :
    toLowerCode (toLowerCode c) = toLowerCode c := by
  simp only [toLowerCode]
  split
  · split <;> omega
  · rfl

theorem toLowerCode_not_upperLetter (c : Nat) :
    ¬ (65 ≤ toLowerCode c ∧ toLowerCode c ≤ 70) := by
  simp only [toLowerCode]
  split <;> omega

theorem toUpperCode_not_lowerLetter_of_hex {c : Nat} (h : isHexDigitCode c = true) :
    ¬ (97 ≤ toUpperCode c ∧ toUpperCode c ≤ 102) := by
  simp only [isHexDigitCode, decide_eq_true_eq] at h
  simp only [toUpperCode]
  split <;> omega

theorem hexVal_lt_16 {c : Nat} (h : isHexDigitCode c = true) : hexVal c < 16 := by
  simp only [isHexDigitCode, decide_eq_true_eq] at h
  simp only [hexVal]
  split <;> [omega; split <;> omega]

theorem isLowerHex_hexCharCode {v : Nat} (h : v < 16) :
    isLowerHexCode (hexCharCode v) = true := by
  simp only [isLowerHexCode, hexCharCode, decide_eq_true_eq]
  split <;> omega

theorem hexVal_hexCharCode {v : Nat} (h : v < 16) : hexVal (hexCharCode v) = v := by
  simp only [hexVal, hexCharCode]
  split <;> [split <;> omega; split <;> [omega; split <;> omega]]

/-! ## List helpers -/

theorem mem_of_getD {l : List Nat} {i : Nat} (h : i < l.length) : l.getD i 0 ∈ l := by
  rw [List.getD_eq_getElem l 0 h]
  exact List.getElem_mem h

theorem range_map_getD (l : List Nat) :
    (List.range l.length).map (fun i => l.getD i 0) = l := by
  induction l with
  | nil => simp
  | cons a t ih =>
    rw [List.length_cons, List.range_succ_eq_map, List.map_cons, List.map_map]
    simp only [Function.comp_def, List.getD_cons_succ, List.getD_cons_zero]
    rw [ih]

/-! ## Checksum-address facts -/

theorem getChecksumAddress_lower_congr {a b : List Nat}
    (hab : a.map toLowerCode = b.map toLowerCode) :
    getChecksumAddress a = getChecksumAddress b := by
  unfold getChecksumAddress
  rw [hab]

theorem getChecksumAddress_form (h : List Nat) (hlen : h.length = 40)
    (hhex : ∀ c ∈ h, isHexDigitCode c = true) :
    ∃ t, getChecksumAddress (48 :: 120 :: h) = 48 :: 120 :: t ∧
      t.length = 40 ∧ (∀ c ∈ t, isHexDigitCode c = true) ∧
      t.map toLowerCode = h.map toLowerCode := by
  have h48 : toLowerCode 48 = 48 := by decide
  have h120 : toLowerCode 120 = 120 := by decide
  have hmap : (48 :: 120 :: h).map toLowerCode = 48 :: 120 :: h.map toLowerCode := by
    simp [h48, h120]
  have hLlen : (h.map toLowerCode).length = 40 := by simp [hlen]
  have hLmem : ∀ c ∈ h.map toLowerCode, isLowerHexCode c = true := by
    intro c hc
    rw [List.mem_map] at hc
    obtain ⟨d, hd, rfl⟩ := hc
    exact isLowerHex_toLowerCode (hhex d hd)
  unfold getChecksumAddress
  rw [hmap]
  simp only [List.drop_succ_cons, List.drop_zero]
  refine ⟨_, rfl, ?_, ?_, ?_⟩
  · simp
  · intro c hc
    rw [List.mem_map] at hc
    obtain ⟨i, hi, rfl⟩ := hc
    rw [List.mem_range] at hi
    have hmem : (h.map toLowerCode).getD i 0 ∈ h.map toLowerCode :=
       mem_of_getD (by omega)
    have hlow := hLmem _ hmem
    split <;> split <;>
      first
      | exact isHex_toUpperCode_of_lowerHex hlow
      | exact isHex_of_isLowerHex hlow
  · rw [List.map_map]
    have : ∀ i ∈ List.range 40,
        (toLowerCode ∘ fun i =>
          if 8 ≤ (if i % 2 == 0 then (keccak256 (h.map toLowerCode)).getD (i / 2) 0 / 16
                  else (keccak256 (h.map toLowerCode)).getD (i / 2) 0 % 16)
          then toUpperCode ((h.map toLowerCode).getD i 0)
          else (h.map toLowerCode).getD i 0) i
        = (fun i => (h.map toLowerCode).getD i 0) i := by
      intro i hi
      rw [List.mem_range] at hi
      have hmem : (h.map toLowerCode).getD i 0 ∈ h.map toLowerCode :=
        mem_of_getD (by omega)
      have hlow := hLmem _ hmem
      simp only [Function.comp_def]
      split <;> split <;>
        first
        | exact toLowerCode_toUpperCode_of_lowerHex hlow
        | exact toLowerCode_of_lowerHex hlow
    rw [List.map_congr_left this]
    have := range_map_getD (h.map toLowerCode)
    rw [hLlen] at this
    exact this

theorem matchesAddrRegex_cons {t : List Nat} (hlen : t.length = 40)
    (hhex : ∀ c ∈ t, isHexDigitCode c = true) :
    matchesAddrRegex (48 :: 120 :: t) = true := by
  simp only [matchesAddrRegex, Bool.or_eq_true, Bool.and_eq_true, beq_iff_eq,
    decide_eq_true_eq, List.all_eq_true, List.length_cons]
  right
  refine ⟨⟨by omega, rfl⟩, fun c hc => hhex c hc⟩

theorem regex_addr2_form {s : List Nat} (hm : matchesAddrRegex s = true) :
    ∃ t, (if s.take 2 = [48, 120] then s else 48 :: 120 :: s) = 48 :: 120 :: t ∧
      t.length = 40 ∧ ∀ c ∈ t, isHexDigitCode c = true := by
  simp only [matchesAddrRegex, Bool.or_eq_true, Bool.and_eq_true, beq_iff_eq,
    decide_eq_true_eq, List.all_eq_true] at hm
  rcases hm with ⟨hlen, hhex⟩ | ⟨⟨hlen, htake⟩, hhex⟩
  · have hne : ¬ s.take 2 = [48, 120] := by
      intro he
      have h120 : (120 : Nat) ∈ s := by
        have : (120 : Nat) ∈ s.take 2 := by rw [he]; simp
        exact List.take_subset 2 s this
      have := hhex 120 h120
      simp [isHexDigitCode] at this
    rw [if_neg hne]
    exact ⟨s, rfl, hlen, hhex⟩
  · have hform : s = 48 :: 120 :: s.drop 2 := by
      conv_lhs => rw [← List.take_append_drop 2 s]
      rw [htake]
      rfl
    rw [if_pos htake]
    refine ⟨s.drop 2, hform, by simp [hlen], fun c hc => hhex c hc⟩

theorem getAddress_fixed {t : List Nat} (htlen : t.length = 40)
    (hthex : ∀ c ∈ t, isHexDigitCode c = true)
    (hcs : getChecksumAddress (48 :: 120 :: t) = 48 :: 120 :: t) :
    getAddress (48 :: 120 :: t) = Except.ok (48 :: 120 :: t) := by
  have hm := matchesAddrRegex_cons htlen hthex
  simp only [getAddress, hm, if_true]
  rw [if_pos (show (48 :: 120 :: t).take 2 = [48, 120] from rfl)]
  rw [hcs]
  simp

theorem getAddress_ok_form {s a : List Nat} (h : getAddress s = Except.ok a) :
    (∃ t, a = 48 :: 120 :: t ∧ t.length = 40 ∧ ∀ c ∈ t, isHexDigitCode c = true) ∧
      getChecksumAddress a = a ∧ getAddress a = Except.ok a := by
  rw [getAddress] at h
  split at h
  case isFalse => simp at h
  case isTrue hm =>
    obtain ⟨t, haddr2, htlen, hthex⟩ := regex_addr2_form hm
    rw [haddr2] at h
    dsimp only at h
    split at h
    · simp at h
    · have ha : a = getChecksumAddress (48 :: 120 :: t) := by
        rw [Except.ok.injEq] at h
        exact h.symm
      obtain ⟨u, hu, hulen, huhex, hulow⟩ := getChecksumAddress_form t htlen hthex
      have haform : a = 48 :: 120 :: u := by rw [ha, hu]
      have h48 : toLowerCode 48 = 48 := by decide
      have h120 : toLowerCode 120 = 120 := by decide
      have hlowa : a.map toLowerCode = (48 :: 120 :: t).map toLowerCode := by
        rw [haform]
        simp only [List.map_cons, h48, h120, hulow]
      have hcsa : getChecksumAddress a = a := by
        rw [getChecksumAddress_lower_congr hlowa, ← ha]
      refine ⟨⟨u, haform, hulen, huhex⟩, hcsa, ?_⟩
      have := getAddress_fixed hulen huhex (by rw [← haform]; exact hcsa)
      rw [← haform] at this
      exact this

theorem getAddress_idem {s a : List Nat} (h : getAddress s = Except.ok a) :
    getAddress a = Except.ok a := (getAddress_ok_form h).2.2

/-! ## Hex-digit and byte encoding facts -/

theorem natHexCharsF_congr : ∀ (f g n : Nat), n ≤ f → n ≤ g →
    natHexCharsF f n = natHexCharsF g n := by
  intro f
  induction f with
  | zero =>
    intro g n hf hg
    have h0 : n = 0 := Nat.le_zero.mp hf
    subst h0
    cases g <;> simp [natHexCharsF]
  | succ f ih =>
    intro g n hf hg
    cases g with
    | zero =>
      have h0 : n = 0 := Nat.le_zero.mp hg
      subst h0
      simp [natHexCharsF]
    | succ g =>
      simp only [natHexCharsF]
      by_cases h0 : n = 0
      · simp [h0]
      · rw [if_neg h0, if_neg h0]
        have hdiv : n / 16 < n := Nat.div_lt_self (Nat.pos_of_ne_zero h0) (by norm_num)
        exact congrArg (· ++ [hexCharCode (n % 16)])
          (ih g (n / 16) (by omega) (by omega))

theorem natHexChars_eq (n : Nat) :
    natHexChars n =
      if n = 0 then [] else natHexChars (n / 16) ++ [hexCharCode (n % 16)] := by
  unfold natHexChars
  cases n with
  | zero => simp [natHexCharsF]
  | succ m =>
    have hdiv : (m + 1) / 16 < m + 1 := Nat.div_lt_self (Nat.succ_pos m) (by norm_num)
    simp only [natHexCharsF, if_neg (Nat.succ_ne_zero m)]
    exact congrArg (· ++ [hexCharCode ((m + 1) % 16)])
      (natHexCharsF_congr m ((m + 1) / 16) ((m + 1) / 16) (by omega) le_rfl)

theorem natBeBytesF_congr : ∀ (f g n : Nat), n ≤ f → n ≤ g →
    natBeBytesF f n = natBeBytesF g n := by
  intro f
  induction f with
  | zero =>
    intro g n hf hg
    have h0 : n = 0 := Nat.le_zero.mp hf
    subst h0
    cases g <;> simp [natBeBytesF]
  | succ f ih =>
    intro g n hf hg
    cases g with
    | zero =>
      have h0 : n = 0 := Nat.le_zero.mp hg
      subst h0
      simp [natBeBytesF]
    | succ g =>
      simp only [natBeBytesF]
      by_cases h0 : n = 0
      · simp [h0]
      · rw [if_neg h0, if_neg h0]
        have hdiv : n / 256 < n := Nat.div_lt_self (Nat.pos_of_ne_zero h0) (by norm_num)
        exact congrArg (· ++ [n % 256]) (ih g (n / 256) (by omega) (by omega))

theorem natBeBytes_eq (n : Nat) :
    natBeBytes n = if n = 0 then [] else natBeBytes (n / 256) ++ [n % 256] := by
  unfold natBeBytes
  cases n with
  | zero => simp [natBeBytesF]
  | succ m =>
    have hdiv : (m + 1) / 256 < m + 1 := Nat.div_lt_self (Nat.succ_pos m) (by norm_num)
    simp only [natBeBytesF, if_neg (Nat.succ_ne_zero m)]
    exact congrArg (· ++ [(m + 1) % 256])
      (natBeBytesF_congr m ((m + 1) / 256) ((m + 1) / 256) (by omega) le_rfl)

theorem hexPairsToBytes_append_pair (a b : Nat) (ys : List Nat) :
    hexPairsToBytes (ys ++ [a, b]) =
      if isHexDigitCode a && isHexDigitCode b then
        (hexPairsToBytes ys).map fun bs => bs ++ [hexVal a * 16 + hexVal b]
      else none := by
  induction ys using hexPairsToBytes.induct with
  | case1 =>
    simp only [List.nil_append, hexPairsToBytes]
    by_cases hab : (isHexDigitCode a && isHexDigitCode b) = true
    · rw [if_pos hab, if_pos hab]
      rfl
    · rw [if_neg hab, if_neg hab]
  | case2 c1 c2 rest hhex ih =>
    simp only [List.cons_append, hexPairsToBytes, if_pos hhex, List.append_eq]
    rw [ih]
    by_cases hab : (isHexDigitCode a && isHexDigitCode b) = true
    · rw [if_pos hab, if_pos hab, Option.map_map, Option.map_map]
      congr 1
    · rw [if_neg hab, if_neg hab]
      rfl
  | case3 c1 c2 rest hhex =>
    simp only [List.cons_append, hexPairsToBytes, if_neg hhex]
    split <;> rfl
  | case4 x =>
    simp only [List.singleton_append, hexPairsToBytes]
    split <;> split <;> rfl

theorem hexPairsToBytes_bytesToHexChars {bs : List Nat} (h : ∀ b ∈ bs, b < 256) :
    hexPairsToBytes (bytesToHexChars bs) = some bs := by
  induction bs with
  | nil => rfl
  | cons b t ih =>
    have hb : b < 256 := h b (List.mem_cons_self b t)
    have hdiv : b / 16 < 16 := by omega
    have hmod : b % 16 < 16 := by omega
    have h1 := isHex_of_isLowerHex (isLowerHex_hexCharCode hdiv)
    have h2 := isHex_of_isLowerHex (isLowerHex_hexCharCode hmod)
    have hcond : (isHexDigitCode (hexCharCode (b / 16)) &&
        isHexDigitCode (hexCharCode (b % 16))) = true := by rw [h1, h2]; rfl
    have hrest := ih fun x hx => h x (List.mem_cons_of_mem b hx)
    show hexPairsToBytes (hexCharCode (b / 16) :: hexCharCode (b % 16) ::
      bytesToHexChars t) = some (b :: t)
    simp only [hexPairsToBytes, if_pos hcond, hrest]
    have hv : hexVal (hexCharCode (b / 16)) * 16 + hexVal (hexCharCode (b % 16)) = b := by
      rw [hexVal_hexCharCode hdiv, hexVal_hexCharCode hmod]
      omega
    rw [show (Option.map (fun bs => (hexVal (hexCharCode (b / 16)) * 16 +
      hexVal (hexCharCode (b % 16))) :: bs) (some t)) = some ((hexVal (hexCharCode (b / 16)) * 16 +
      hexVal (hexCharCode (b % 16))) :: t) from rfl, hv]

theorem bytesToHexChars_lowercase (bs : List Nat) :
    (bytesToHexChars bs).map toLowerCode = bytesToHexChars bs := by
  induction bs with
  | nil => rfl
  | cons b t ih =>
    simp only [bytesToHexChars, List.flatMap_cons, List.map_append] at ih ⊢
    rw [show List.map toLowerCode [hexCharCode (b / 16), hexCharCode (b % 16)] =
      [toLowerCode (hexCharCode (b / 16)), toLowerCode (hexCharCode (b % 16))] from rfl]
    rw [toLowerCode_of_lowerHex (isLowerHex_hexCharCode (Nat.mod_lt b (by norm_num)))]
    rw [ih]
    by_cases hb : b / 16 < 16
    · rw [toLowerCode_of_lowerHex (isLowerHex_hexCharCode hb)]
    · -- for bytes below 256 this branch is vacuous; for larger values the
      -- digit code is fixed by toLowerCode anyway
      have : ¬ (65 ≤ hexCharCode (b / 16) ∧ hexCharCode (b / 16) ≤ 90) := by
        simp only [hexCharCode]
        split <;> omega
      simp only [toLowerCode, if_neg this]

theorem beVal_append (xs : List Nat) (b : Nat) :
    beVal (xs ++ [b]) = beVal xs * 256 + b := by
  simp [beVal, List.foldl_append]

theorem beVal_natBeBytes (n : Nat) : beVal (natBeBytes n) = n := by
  induction n using Nat.strong_induction_on with
  | _ n ih =>
    rw [natBeBytes_eq]
    by_cases h0 : n = 0
    · simp [h0, beVal]
    · rw [if_neg h0, beVal_append,
        ih (n / 256) (Nat.div_lt_self (Nat.pos_of_ne_zero h0) (by norm_num))]
      omega

theorem natBeBytes_lt_256 (n : Nat) : ∀ b ∈ natBeBytes n, b < 256 := by
  induction n using Nat.strong_induction_on with
  | _ n ih =>
    rw [natBeBytes_eq]
    by_cases h0 : n = 0
    · simp [h0]
    · rw [if_neg h0]
      intro b hb
      rcases List.mem_append.mp hb with hb | hb
      · exact ih (n / 256) (Nat.div_lt_self (Nat.pos_of_ne_zero h0) (by norm_num)) b hb
      · simp only [List.mem_singleton] at hb
        omega

theorem natBeBytes_length_le {n k : Nat} (h : n < 256 ^ k) :
    (natBeBytes n).length ≤ k := by
  induction k generalizing n with
  | zero =>
    have : n = 0 := by simpa using h
    simp [this, natBeBytes_eq]
  | succ k ih =>
    rw [natBeBytes_eq]
    by_cases h0 : n = 0
    · simp [h0]
    · rw [if_neg h0]
      have hlt : n / 256 < 256 ^ k := by
        rw [Nat.div_lt_iff_lt_mul (by norm_num : (0 : Nat) < 256)]
        calc n < 256 ^ (k + 1) := h
        _ = 256 ^ k * 256 := by ring
      simpa using ih hlt

theorem toBeHex_ofNat (n : Nat) :
    toBeHex (n : Int) = Except.ok (48 :: 120 ::
      (if (toString16Chars n).length % 2 = 1 then 48 :: toString16Chars n
       else toString16Chars n)) := by
  rw [toBeHex, if_neg (by omega : ¬ (n : Int) < 0)]
  rw [Int.toNat_natCast]

set_option maxRecDepth 40000 in
theorem hexPairs_evenPad_base : ∀ n, n < 256 →
    hexPairsToBytes (if (toString16Chars n).length % 2 = 1 then 48 :: toString16Chars n
      else toString16Chars n) = some (beBytesZ n) := by decide

theorem hexPairs_evenPad (n : Nat) :
    hexPairsToBytes (if (toString16Chars n).length % 2 = 1 then 48 :: toString16Chars n
      else toString16Chars n) = some (beBytesZ n) := by
  induction n using Nat.strong_induction_on with
  | _ n ih =>
    by_cases hsmall : n < 256
    · exact hexPairs_evenPad_base n hsmall
    · have h0 : n ≠ 0 := by omega
      have h16 : n / 16 ≠ 0 := by omega
      have hq0 : n / 256 ≠ 0 := by omega
      have hsplit : natHexChars n =
          natHexChars (n / 256) ++ [hexCharCode (n / 16 % 16), hexCharCode (n % 16)] := by
        rw [natHexChars_eq n, if_neg h0, natHexChars_eq (n / 16), if_neg h16]
        rw [Nat.div_div_eq_div_mul]
        norm_num
      have hts : toString16Chars n = natHexChars n := by
        rw [toString16Chars, if_neg h0]
      have htq : toString16Chars (n / 256) = natHexChars (n / 256) := by
        rw [toString16Chars, if_neg hq0]
      have hpad : (if (toString16Chars n).length % 2 = 1 then 48 :: toString16Chars n
          else toString16Chars n) =
          (if (toString16Chars (n / 256)).length % 2 = 1 then
            48 :: toString16Chars (n / 256) else toString16Chars (n / 256)) ++
            [hexCharCode (n / 16 % 16), hexCharCode (n % 16)] := by
        rw [hts, htq, hsplit]
        by_cases hodd : (natHexChars (n / 256)).length % 2 = 1
        · rw [if_pos (by simp; omega), if_pos hodd]
          simp
        · rw [if_neg (by simp; omega), if_neg hodd]
      rw [hpad, hexPairsToBytes_append_pair]
      have hc1 : isHexDigitCode (hexCharCode (n / 16 % 16)) = true :=
        isHex_of_isLowerHex (isLowerHex_hexCharCode (by omega))
      have hc2 : isHexDigitCode (hexCharCode (n % 16)) = true :=
        isHex_of_isLowerHex (isLowerHex_hexCharCode (by omega))
      rw [if_pos (by rw [hc1, hc2]; rfl)]
      rw [ih (n / 256) (by omega)]
      rw [hexVal_hexCharCode (by omega : n / 16 % 16 < 16),
        hexVal_hexCharCode (by omega : n % 16 < 16)]
      show some (beBytesZ (n / 256) ++ [n / 16 % 16 * 16 + n % 16]) = some (beBytesZ n)
      have hv : n / 16 % 16 * 16 + n % 16 = n % 256 := by omega
      rw [hv]
      have e1 : beBytesZ (n / 256) = natBeBytes (n / 256) := by
        rw [beBytesZ, if_neg hq0]
      have e2 : beBytesZ n = natBeBytes (n / 256) ++ [n % 256] := by
        rw [beBytesZ, if_neg h0, natBeBytes_eq n, if_neg h0]
      rw [e1, e2]

theorem foldhex_bytes {bs : List Nat} (h : ∀ b ∈ bs, b < 256) : ∀ acc : Nat,
    (bytesToHexChars bs).foldl (fun a c => a * 16 + hexVal c) acc =
      bs.foldl (fun a b => a * 256 + b) acc := by
  induction bs with
  | nil => intro acc; rfl
  | cons b t ih =>
    intro acc
    have hb : b < 256 := h b (List.mem_cons_self b t)
    show (bytesToHexChars t).foldl (fun a c => a * 16 + hexVal c)
      ((acc * 16 + hexVal (hexCharCode (b / 16))) * 16 + hexVal (hexCharCode (b % 16))) =
      t.foldl (fun a b => a * 256 + b) (acc * 256 + b)
    rw [hexVal_hexCharCode (by omega : b / 16 < 16),
      hexVal_hexCharCode (by omega : b % 16 < 16)]
    rw [show (acc * 16 + b / 16) * 16 + b % 16 = acc * 256 + b by omega]
    exact ih (fun x hx => h x (List.mem_cons_of_mem b hx)) (acc * 256 + b)

theorem jsBigIntOfHexText_hexlify {bs : List Nat} (h : ∀ b ∈ bs, b < 256) :
    jsBigIntOfHexText (jsHexlify bs) = (beVal bs : Int) := by
  show (((bytesToHexChars bs).foldl (fun a c => a * 16 + hexVal c) 0 : Nat) : Int) =
    (beVal bs : Int)
  rw [foldhex_bytes h 0]
  rfl

set_option maxRecDepth 40000 in
theorem jsParseInt16_padStart2 : ∀ m, m < 256 → m ≠ 0 →
    (padStart2 (toString16Chars m)).length = 2 ∧
      jsParseInt16 (padStart2 (toString16Chars m)) = some (m : Int) := by decide

theorem beBytesZ_lt_256 (n : Nat) : ∀ b ∈ beBytesZ n, b < 256 := by
  rw [beBytesZ]
  split
  · simp
  · exact natBeBytes_lt_256 n

theorem beBytesZ_length_pos (n : Nat) : (beBytesZ n).length ≠ 0 := by
  rw [beBytesZ]
  split
  · simp
  · rw [natBeBytes_eq]
    split
    · omega
    · simp

theorem beBytesZ_length_le {n : Nat} (h : n < 2 ^ 2040) :
    (beBytesZ n).length ≤ 255 := by
  rw [beBytesZ]
  split
  · simp
  · refine natBeBytes_length_le ?_
    calc n < 2 ^ 2040 := h
    _ = 256 ^ 255 := by
      rw [show (256 : Nat) = 2 ^ 8 by norm_num, ← pow_mul]

theorem beVal_beBytesZ (n : Nat) : beVal (beBytesZ n) = n := by
  rw [beBytesZ]
  split
  · subst ‹n = 0›
    rfl
  · exact beVal_natBeBytes n

theorem encodeAgentRegistryRecord_eq {addr a : JSString}
    (ha : getAddress addr = Except.ok a) (n : Nat) :
    encodeAgentRegistryRecord addr (n : Int) =
      Except.ok (a ++ padStart2 (toString16Chars (beBytesZ n).length) ++
        bytesToHexChars (beBytesZ n)) := by
  simp only [encodeAgentRegistryRecord, ha, toBeHex_ofNat, jsGetBytes,
    hexPairs_evenPad, jsHexlify, List.drop_succ_cons, List.drop_zero,
    bytesToHexChars_lowercase]
  rfl

theorem decode_of_parts {a : JSString} (L P : JSString) (bs : List Nat)
    (hform : ∃ t, a = 48 :: 120 :: t ∧ t.length = 40 ∧ ∀ c ∈ t, isHexDigitCode c = true)
    (hfix : getAddress a = Except.ok a) (hL2 : L.length = 2)
    (hparse : jsParseInt16 L = some ((bs.length : Nat) : Int))
    (hPlow : P.map toLowerCode = P) (hPbytes : hexPairsToBytes P = some bs)
    (hbs0 : bs.length ≠ 0) :
    decodeAgentRegistryRecord (a ++ L ++ P) =
      Except.ok { version := 1, chainType := 0, chainReference := 0,
                  address := a, agentId := jsBigIntOfHexText (jsHexlify bs) } := by
  obtain ⟨t, haform, htlen, hthex⟩ := hform
  have halen : a.length = 42 := by rw [haform]; simp [htlen]
  have hassoc : a ++ L ++ P = a ++ (L ++ P) := List.append_assoc a L P
  have haL : (a ++ L).length = 44 := by simp [halen, hL2]
  have htake2 : (a ++ L ++ P).take 2 = [48, 120] := by
    rw [hassoc, List.take_append_of_le_length (by omega), haform]
    rfl
  have hlentot : (a ++ L ++ P).length = 44 + P.length := by
    simp [halen, hL2]
    omega
  have hdrop42 : (a ++ L ++ P).drop 42 = L ++ P := by
    rw [hassoc, ← halen, List.drop_left]
  have htake42 : (a ++ L ++ P).take 42 = a := by
    rw [hassoc, ← halen, List.take_left]
  have hdrop44 : (a ++ L ++ P).drop 44 = P := by
    rw [← haL, List.drop_left]
  have hslice : ((a ++ L ++ P).drop 42).take 2 = L := by
    rw [hdrop42, List.take_append_of_le_length (by omega),
      List.take_of_length_le (by omega)]
  rw [decodeAgentRegistryRecord]
  rw [if_neg (not_not_intro htake2)]
  rw [if_neg (by omega : ¬ (a ++ L ++ P).length < 44)]
  dsimp only
  rw [hslice, hparse]
  dsimp only
  rw [if_neg (by omega : ¬ ((bs.length : Nat) : Int) < 0)]
  rw [hdrop44, hPlow]
  have hjs2 : jsGetBytes (48 :: 120 :: P) = Except.ok bs := by
    unfold jsGetBytes
    rw [if_pos (show (48 :: 120 :: P).take 2 = [48, 120] from rfl)]
    rw [show (48 :: 120 :: P).drop 2 = P from rfl, hPbytes]
  rw [hjs2]
  dsimp only
  rw [if_neg (not_not_intro rfl)]
  rw [if_neg hbs0]
  rw [htake42, hfix]

/-! ## Matcher characterization -/

theorem recordMatchesAgent_spec (r : AgentRegistryRecord) (e : ExpectedAgent)
    {a : JSString} (ha : getAddress e.registryAddress = Except.ok a) :
    recordMatchesAgent r e = Except.ok
      (decide (r.version = 1 ∧ r.chainType = 0 ∧ r.chainReference = e.chainId ∧
        a = r.address ∧ r.agentId = e.agentId)) := by
  rw [recordMatchesAgent, ha]
  by_cases h1 : r.version ≠ 1 ∨ r.chainType ≠ 0
  · rw [if_pos h1]
    have hP : ¬ (r.version = 1 ∧ r.chainType = 0 ∧ r.chainReference = e.chainId ∧
        a = r.address ∧ r.agentId = e.agentId) := by tauto
    simp [hP]
  · rw [if_neg h1]
    push_neg at h1
    by_cases h2 : r.chainReference ≠ e.chainId
    · rw [if_pos h2]
      have hP : ¬ (r.version = 1 ∧ r.chainType = 0 ∧ r.chainReference = e.chainId ∧
          a = r.address ∧ r.agentId = e.agentId) := by tauto
      simp [hP]
    · rw [if_neg h2]
      push_neg at h2
      dsimp only
      by_cases h3 : a ≠ r.address
      · rw [if_pos h3]
        have hP : ¬ (r.version = 1 ∧ r.chainType = 0 ∧ r.chainReference = e.chainId ∧
            a = r.address ∧ r.agentId = e.agentId) := by tauto
        simp [hP]
      · rw [if_neg h3]
        push_neg at h3
        by_cases h4 : r.agentId ≠ e.agentId
        · rw [if_pos h4]
          have hP : ¬ (r.version = 1 ∧ r.chainType = 0 ∧ r.chainReference = e.chainId ∧
              a = r.address ∧ r.agentId = e.agentId) := by tauto
          simp [hP]
        · rw [if_neg h4]
          push_neg at h4
          have hP : r.version = 1 ∧ r.chainType = 0 ∧ r.chainReference = e.chainId ∧
              a = r.address ∧ r.agentId = e.agentId := ⟨h1.1, h1.2, h2, h3, h4⟩
          simp [hP]

/-- C2: `recordMatchesAgent` returns `true` iff the record version is 1, its
chain type is the EVM namespace code `0x0000`, its chain reference equals the
expected chain id, the checksum-normalized expected registry address equals
the record address, and the agent ids agree; and flipping any single expected
field to a non-matching value while the others stay fixed yields `false`. -/
theorem C2_match_conjunctive (r : AgentRegistryRecord) (e : ExpectedAgent)
    {a : JSString} (ha : getAddress e.registryAddress = Except.ok a) :
    (recordMatchesAgent r e = Except.ok true ↔
      (r.version = 1 ∧ r.chainType = 0 ∧ r.chainReference = e.chainId ∧
        a = r.address ∧ r.agentId = e.agentId)) ∧
    (∀ c' : Int, c' ≠ e.chainId → recordMatchesAgent r e = Except.ok true →
      recordMatchesAgent r { e with chainId := c' } = Except.ok false) ∧
    (∀ addr' a' : JSString, getAddress addr' = Except.ok a' → a' ≠ a →
      recordMatchesAgent r e = Except.ok true →
      recordMatchesAgent r { e with registryAddress := addr' } = Except.ok false) ∧
    (∀ i' : Int, i' ≠ e.agentId → recordMatchesAgent r e = Except.ok true →
      recordMatchesAgent r { e with agentId := i' } = Except.ok false) := by
  have hiff : recordMatchesAgent r e = Except.ok true ↔
      (r.version = 1 ∧ r.chainType = 0 ∧ r.chainReference = e.chainId ∧
        a = r.address ∧ r.agentId = e.agentId) := by
    rw [recordMatchesAgent_spec r e ha]
    simp
  refine ⟨hiff, ?_, ?_, ?_⟩
  · intro c' hc htrue
    obtain ⟨q1, q2, q3, q4, q5⟩ := hiff.mp htrue
    rw [recordMatchesAgent_spec r { e with chainId := c' } ha]
    have : ¬ (r.version = 1 ∧ r.chainType = 0 ∧ r.chainReference = c' ∧
        a = r.address ∧ r.agentId = e.agentId) := by
      rintro ⟨-, -, hq, -, -⟩
      exact hc (by rw [← hq, q3])
    simp [this]
  · intro addr' a' ha' hne htrue
    obtain ⟨q1, q2, q3, q4, q5⟩ := hiff.mp htrue
    rw [recordMatchesAgent_spec r { e with registryAddress := addr' } ha']
    have : ¬ (r.version = 1 ∧ r.chainType = 0 ∧ r.chainReference = e.chainId ∧
        a' = r.address ∧ r.agentId = e.agentId) := by
      rintro ⟨-, -, -, hq, -⟩
      exact hne (by rw [hq, q4])
    simp [this]
  · intro i' hi htrue
    obtain ⟨q1, q2, q3, q4, q5⟩ := hiff.mp htrue
    rw [recordMatchesAgent_spec r { e with agentId := i' } ha]
    have : ¬ (r.version = 1 ∧ r.chainType = 0 ∧ r.chainReference = e.chainId ∧
        a = r.address ∧ r.agentId = i') := by
      rintro ⟨-, -, -, -, hq⟩
      exact hi (by rw [← hq, q5])
    simp [this]

/-! ## Round-trip and length-prefix -/

/-- C3: for every valid registry address (one the checksum normalizer
accepts) and every agent id in `[0, 2 ^ 2040)`, encoding a record value and
then decoding it yields the original checksum-cased address and the original
integer agent id. -/
theorem C3_round_trip {addr a : JSString} (ha : getAddress addr = Except.ok a)
    {n : Nat} (hn : n < 2 ^ 2040) :
    ∃ v, encodeAgentRegistryRecord addr (n : Int) = Except.ok v ∧
      ∃ r, decodeAgentRegistryRecord v = Except.ok r ∧
        r.address = a ∧ r.agentId = (n : Int) := by
  obtain ⟨hform, hcs, hfix⟩ := getAddress_ok_form ha
  have hmpos := beBytesZ_length_pos n
  have hmle := beBytesZ_length_le hn
  obtain ⟨hL2, hparse⟩ := jsParseInt16_padStart2 (beBytesZ n).length (by omega) hmpos
  refine ⟨_, encodeAgentRegistryRecord_eq ha n, ?_⟩
  refine ⟨_, decode_of_parts _ _ (beBytesZ n) hform hfix hL2 hparse
    (bytesToHexChars_lowercase _)
    (hexPairsToBytes_bytesToHexChars (beBytesZ_lt_256 n)) hmpos, rfl, ?_⟩
  show jsBigIntOfHexText (jsHexlify (beBytesZ n)) = (n : Int)
  rw [jsBigIntOfHexText_hexlify (beBytesZ_lt_256 n), beVal_beBytesZ]

theorem beBytesZ_length (n : Nat) :
    (beBytesZ n).length = if n = 0 then 1 else minBeByteLen n := by
  rw [beBytesZ]
  split
  · simp
  · rfl

set_option maxRecDepth 1000000 in
/-- C4 counterexample: the encoder maps agent id 0 to the single zero byte
`00` with length byte `01` (because `toBeHex 0` is `0x00`), not to zero bytes
with length byte `00` as the claim demands of a minimal encoding. -/
theorem C4_counterexample :
    encodeAgentRegistryRecord
        (jsOfString "0x1111111111111111111111111111111111111111") 0 =
      Except.ok (jsOfString "0x11111111111111111111111111111111111111110100") ∧
    minBeByteLen 0 = 0 ∧
    (jsOfString "0x11111111111111111111111111111111111111110100").drop 42 ≠
      jsOfString "00" := by decide

/-- C4 amended: for every agent id below `2 ^ 2040`, the encoded length byte
is the byte count of the bytes `toBeHex` produces, which is the minimal
big-endian byte count for every nonzero agent id; agent id 0 is the one
exception, encoding as a single zero byte with length byte `01`. -/
theorem C4_length_prefix {addr a : JSString} (ha : getAddress addr = Except.ok a)
    {n : Nat} (hn : n < 2 ^ 2040) :
    ∃ v, encodeAgentRegistryRecord addr (n : Int) = Except.ok v ∧
      jsParseInt16 ((v.drop 42).take 2) =
        some (((if n = 0 then 1 else minBeByteLen n) : Nat) : Int) ∧
      v.drop 44 = bytesToHexChars (if n = 0 then [0] else natBeBytes n) := by
  obtain ⟨⟨t, haform, htlen, hthex⟩, hcs, hfix⟩ := getAddress_ok_form ha
  have hmpos := beBytesZ_length_pos n
  have hmle := beBytesZ_length_le hn
  obtain ⟨hL2, hparse⟩ := jsParseInt16_padStart2 (beBytesZ n).length (by omega) hmpos
  have halen : a.length = 42 := by rw [haform]; simp [htlen]
  refine ⟨_, encodeAgentRegistryRecord_eq ha n, ?_, ?_⟩
  · have hassoc : a ++ padStart2 (toString16Chars (beBytesZ n).length) ++
        bytesToHexChars (beBytesZ n) =
        a ++ (padStart2 (toString16Chars (beBytesZ n).length) ++
          bytesToHexChars (beBytesZ n)) := List.append_assoc _ _ _
    have hdrop42 : (a ++ padStart2 (toString16Chars (beBytesZ n).length) ++
        bytesToHexChars (beBytesZ n)).drop 42 =
        padStart2 (toString16Chars (beBytesZ n).length) ++
          bytesToHexChars (beBytesZ n) := by
      rw [hassoc, ← halen, List.drop_left]
    rw [hdrop42, List.take_append_of_le_length (by omega),
      List.take_of_length_le (by omega), hparse, beBytesZ_length]
  · have haL : (a ++ padStart2 (toString16Chars (beBytesZ n).length)).length = 44 := by
      simp [halen, hL2]
    rw [← haL, List.drop_left]
    rw [show (if n = 0 then [0] else natBeBytes n) = beBytesZ n from rfl]

/-! ## Decode error-message discrimination -/

theorem jsGetBytes_error_msg {s : JSString} {e : String}
    (h : jsGetBytes s = Except.error e) : e = "invalid BytesLike value" := by
  rw [jsGetBytes] at h
  split at h
  · split at h
    · simp at h
    · rw [Except.error.injEq] at h
      exact h.symm
  · rw [Except.error.injEq] at h
    exact h.symm

theorem getAddress_error_msg {s : JSString} {e : String}
    (h : getAddress s = Except.error e) :
    e = "bad address checksum" ∨ e = "invalid address" := by
  rw [getAddress] at h
  split at h
  · dsimp only at h
    split at h <;> split at h <;>
      first
      | (rw [Except.error.injEq] at h; exact Or.inl h.symm)
      | simp at h
  · rw [Except.error.injEq] at h
    exact Or.inr h.symm

set_option maxRecDepth 1000000 in
/-- C5 counterexample: the two-character length slice of this value is a
letter followed by a space, which is not a hex digit pair, yet JS `parseInt`
coerces it to 10 and the decoder accepts the value (10-byte zero payload)
instead of rejecting it with the invalid-agent-ID-length error. -/
theorem C5_counterexample :
    ((jsOfString
        "0x0000000000000000000000000000000000000000a 00000000000000000000").drop 42).take 2
        = [97, 32] ∧
    ¬ [97, 32].all isHexDigitCode = true ∧
    decodeAgentRegistryRecord
        (jsOfString "0x0000000000000000000000000000000000000000a 00000000000000000000") =
      Except.ok { version := 1, chainType := 0, chainReference := 0,
                  address := jsOfString "0x0000000000000000000000000000000000000000",
                  agentId := 0 } := by decide

/-- C5 amended: for a value passing the prefix and minimum-length gates, the
decoder raises the invalid-agent-ID-length error exactly when JS `parseInt`
semantics turn the two-character slice at positions 42..44 into NaN or a
negative number; a slice with a valid leading hex digit followed by junk is
coerced to the parsed prefix value rather than rejected at this gate. -/
theorem C5_invalid_length {v : JSString} (hpre : v.take 2 = [48, 120])
    (hlen : ¬ v.length < 44) :
    (decodeAgentRegistryRecord v = Except.error "Invalid agent ID length" ↔
      badLenSlice ((v.drop 42).take 2) = true) := by
  rw [decodeAgentRegistryRecord, if_neg (not_not_intro hpre), if_neg hlen]
  dsimp only
  split
  · rename_i hp
    simp [badLenSlice, hp]
  · rename_i k hp
    by_cases hk : k < 0
    · rw [if_pos hk]
      simp [badLenSlice, hp, hk]
    · rw [if_neg hk]
      constructor
      · intro hcontra
        exfalso
        split at hcontra
        · rename_i e1 hjb
          rw [Except.error.injEq] at hcontra
          have hmsg := jsGetBytes_error_msg hjb
          rw [hcontra] at hmsg
          exact absurd hmsg (by decide)
        · rename_i bs hjb
          by_cases hmis : ¬ (bs.length : Int) = k
          · rw [if_pos hmis, Except.error.injEq] at hcontra
            exact absurd hcontra (by decide)
          · rw [if_neg hmis] at hcontra
            split at hcontra
            · rename_i e2 hga
              rw [Except.error.injEq] at hcontra
              rcases getAddress_error_msg hga with h' | h' <;>
                · rw [hcontra] at h'
                  exact absurd h' (by decide)
            · simp at hcontra
      · intro hfalse
        simp [badLenSlice, hp, hk] at hfalse

/-! ## Key-builder facts -/

theorem natHexChars_lowerHex (n : Nat) :
    ∀ c ∈ natHexChars n, isLowerHexCode c = true := by
  induction n using Nat.strong_induction_on with
  | _ n ih =>
    rw [natHexChars_eq]
    by_cases h0 : n = 0
    · simp [h0]
    · rw [if_neg h0]
      intro c hc
      rcases List.mem_append.mp hc with hc | hc
      · exact ih (n / 16) (Nat.div_lt_self (Nat.pos_of_ne_zero h0) (by norm_num)) c hc
      · simp only [List.mem_singleton] at hc
        subst hc
        exact isLowerHex_hexCharCode (by omega)

theorem toString16Chars_lowerHex (n : Nat) :
    ∀ c ∈ toString16Chars n, isLowerHexCode c = true := by
  rw [toString16Chars]
  split
  · intro c hc
    simp only [List.mem_singleton] at hc
    subst hc
    decide
  · exact natHexChars_lowerHex n

theorem map_toLowerCode_of_lowerHex {l : JSString}
    (h : ∀ c ∈ l, isLowerHexCode c = true) : l.map toLowerCode = l := by
  induction l with
  | nil => rfl
  | cons c t ih =>
    rw [List.map_cons, toLowerCode_of_lowerHex (h c (List.mem_cons_self c t)),
      ih fun x hx => h x (List.mem_cons_of_mem c hx)]

theorem bytesToHexChars_lowerHex {bs : List Nat} (h : ∀ b ∈ bs, b < 256) :
    ∀ c ∈ bytesToHexChars bs, isLowerHexCode c = true := by
  intro c hc
  rw [bytesToHexChars, List.mem_flatMap] at hc
  obtain ⟨b, hb, hcb⟩ := hc
  have hblt := h b hb
  simp only [List.mem_cons, List.not_mem_nil, or_false] at hcb
  rcases hcb with rfl | rfl
  · exact isLowerHex_hexCharCode (by omega)
  · exact isLowerHex_hexCharCode (by omega)

theorem toBeHex_pad_lowerHex (n : Nat) :
    ∀ c ∈ (if (toString16Chars n).length % 2 = 1 then 48 :: toString16Chars n
      else toString16Chars n), isLowerHexCode c = true := by
  split
  · intro c hc
    rcases List.mem_cons.mp hc with hc | hc
    · subst hc; decide
    · exact toString16Chars_lowerHex n c hc
  · exact toString16Chars_lowerHex n

theorem encode7930_ok {chainId : Int} (h0 : 0 ≤ chainId) (hb : chainId < 2 ^ 2040) :
    ∃ seg, encode7930ChainIdentifierHex chainId (jsOfString "eip155") = Except.ok seg ∧
      ∀ c ∈ seg, isLowerHexCode c = true := by
  have hcast : ((chainId.toNat : Nat) : Int) = chainId := Int.toNat_of_nonneg h0
  have hnb : chainId.toNat < 2 ^ 2040 := by
    have h2 : ((2 ^ 2040 : Nat) : Int) = 2 ^ 2040 := by push_cast; ring
    omega
  rw [encode7930ChainIdentifierHex, if_neg (by omega : ¬ chainId < 0),
    if_neg (by decide : ¬ (CAIP_NAMESPACE_CODES (jsOfString "eip155")).isNone = true)]
  rw [← hcast, toBeHex_ofNat]
  dsimp only
  rw [show (48 :: 120 ::
      (if (toString16Chars chainId.toNat).length % 2 = 1 then
        48 :: toString16Chars chainId.toNat else toString16Chars chainId.toNat)).map
      toLowerCode =
      48 :: 120 ::
      (if (toString16Chars chainId.toNat).length % 2 = 1 then
        48 :: toString16Chars chainId.toNat else toString16Chars chainId.toNat) from by
    rw [List.map_cons, List.map_cons,
      map_toLowerCode_of_lowerHex (toBeHex_pad_lowerHex chainId.toNat)]
    rfl]
  rw [interopBuildFromPayload]
  rw [show CAIP_NAMESPACE_CODES (jsOfString "eip155") = some 0 from rfl]
  dsimp only
  rw [jsGetBytes]
  rw [if_pos (show (48 :: 120 ::
      (if (toString16Chars chainId.toNat).length % 2 = 1 then
        48 :: toString16Chars chainId.toNat else toString16Chars chainId.toNat)).take 2 =
      [48, 120] from rfl)]
  rw [show (48 :: 120 ::
      (if (toString16Chars chainId.toNat).length % 2 = 1 then
        48 :: toString16Chars chainId.toNat else toString16Chars chainId.toNat)).drop 2 =
      (if (toString16Chars chainId.toNat).length % 2 = 1 then
        48 :: toString16Chars chainId.toNat else toString16Chars chainId.toNat) from rfl]
  rw [hexPairs_evenPad]
  dsimp only
  rw [if_neg (by
    have := beBytesZ_length_le hnb
    omega)]
  refine ⟨_, rfl, ?_⟩
  show ∀ c ∈ ((jsHexlify _).drop 2).map toLowerCode, isLowerHexCode c = true
  rw [show (jsHexlify ([0, 1, 0 / 256, 0 % 256, (beBytesZ chainId.toNat).length] ++
      beBytesZ chainId.toNat ++ [0])).drop 2 =
    bytesToHexChars ([0, 1, 0 / 256, 0 % 256, (beBytesZ chainId.toNat).length] ++
      beBytesZ chainId.toNat ++ [0]) from rfl]
  rw [bytesToHexChars_lowercase]
  refine bytesToHexChars_lowerHex ?_
  intro b hb2
  have hlen := beBytesZ_length_le hnb
  rcases List.mem_append.mp hb2 with hb2 | hb2
  · rcases List.mem_append.mp hb2 with hb2 | hb2
    · simp only [List.mem_cons, List.mem_singleton] at hb2
      rcases hb2 with rfl | rfl | rfl | rfl | rfl | h'
      · omega
      · omega
      · omega
      · omega
      · omega
      · cases h'
    · exact beBytesZ_lt_256 chainId.toNat b hb2
  · simp only [List.mem_singleton] at hb2
    omega

theorem buildKey_ok {chainId : Int} (h0 : 0 ≤ chainId) (hb : chainId < 2 ^ 2040) :
    ∃ seg, buildAgentRegistryRecordKey chainId (jsOfString "eip155") =
      Except.ok (jsOfString "agent-registry:" ++ seg) ∧
      ∀ c ∈ seg, isLowerHexCode c = true := by
  obtain ⟨seg, hseg, hlow⟩ := encode7930_ok h0 hb
  refine ⟨seg, ?_, hlow⟩
  rw [buildAgentRegistryRecordKey,
    if_neg (by decide : ¬ (CAIP_NAMESPACE_CODES (jsOfString "eip155")).isNone = true),
    hseg]

/-- C8: for every non-negative chain reference (below the 255-byte ERC-7930
bound of the chain-reference field), the key builder returns
`agent-registry:<hex>` with a lowercase hex segment carrying no `0x` prefix;
an unknown namespace tag is rejected consistently by both the entry check
and the codec's own check, before any encoding work; a negative chain
reference is rejected. -/
theorem C8_key_builder :
    (∀ chainId : Int, 0 ≤ chainId → chainId < 2 ^ 2040 →
      ∃ seg, buildAgentRegistryRecordKey chainId (jsOfString "eip155") =
          Except.ok (jsOfString "agent-registry:" ++ seg) ∧
        (∀ c ∈ seg, isLowerHexCode c = true) ∧ seg.take 2 ≠ [48, 120]) ∧
    (∀ (chainId : Int) (ns : JSString), CAIP_NAMESPACE_CODES ns = none →
      buildAgentRegistryRecordKey chainId ns =
        Except.error "Unsupported CAIP namespace" ∧
      (0 ≤ chainId → encode7930ChainIdentifierHex chainId ns =
        Except.error "Unsupported CAIP namespace")) ∧
    (∀ chainId : Int, chainId < 0 →
      buildAgentRegistryRecordKey chainId (jsOfString "eip155") =
        Except.error "Chain reference must be non-negative") := by
  refine ⟨?_, ?_, ?_⟩
  · intro chainId h0 hb
    obtain ⟨seg, hseg, hlow⟩ := buildKey_ok h0 hb
    refine ⟨seg, hseg, hlow, ?_⟩
    intro heq
    have h120 : (120 : Nat) ∈ seg := by
      refine List.take_subset 2 seg ?_
      rw [heq]
      simp
    have := hlow 120 h120
    simp [isLowerHexCode] at this
  · intro chainId ns hns
    constructor
    · rw [buildAgentRegistryRecordKey, if_pos (by rw [hns]; rfl)]
    · intro h0
      rw [encode7930ChainIdentifierHex, if_neg (by omega : ¬ chainId < 0),
        if_pos (by rw [hns]; rfl)]
  · intro chainId hneg
    rw [buildAgentRegistryRecordKey,
      if_neg (by decide : ¬ (CAIP_NAMESPACE_CODES (jsOfString "eip155")).isNone = true),
      encode7930ChainIdentifierHex, if_pos hneg]

/-! ## Loader facts -/

theorem load_unfold (provider : Provider) (ensName : JSString) {chainId : Int}
    {key : JSString} {ns : JSString}
    (hkey : buildAgentRegistryRecordKey chainId ns = Except.ok key) :
    loadAgentRegistryRecord provider ensName chainId ns =
      (match fetchAgentRegistryRecord provider ensName key with
        | none => Except.ok none
        | some value =>
          if value = [] then Except.ok none
          else
            match decodeAgentRegistryRecord value with
            | Except.error _ => Except.ok none
            | Except.ok decoded =>
              Except.ok (some { decoded with chainReference := chainId })) := by
  rw [loadAgentRegistryRecord, hkey]

/-- C7: for every chain id the key can be built for, the composed loader
never raises on absent or malformed values: a null fetch result and the
empty string both yield no record, any decode failure yields no record, and
a successful decode yields the record with its chain reference replaced by
the chain id the key was built from. -/
theorem C7_loader_fail_closed (provider : Provider) (ensName : JSString)
    {chainId : Int} (h0 : 0 ≤ chainId) (hb : chainId < 2 ^ 2040) :
    ∃ key, buildAgentRegistryRecordKey chainId (jsOfString "eip155") = Except.ok key ∧
      (∃ o, loadAgentRegistryRecord provider ensName chainId (jsOfString "eip155") =
        Except.ok o) ∧
      (fetchAgentRegistryRecord provider ensName key = none →
        loadAgentRegistryRecord provider ensName chainId (jsOfString "eip155") =
          Except.ok none) ∧
      (fetchAgentRegistryRecord provider ensName key = some [] →
        loadAgentRegistryRecord provider ensName chainId (jsOfString "eip155") =
          Except.ok none) ∧
      (∀ s err, fetchAgentRegistryRecord provider ensName key = some s → s ≠ [] →
        decodeAgentRegistryRecord s = Except.error err →
        loadAgentRegistryRecord provider ensName chainId (jsOfString "eip155") =
          Except.ok none) ∧
      (∀ s d, fetchAgentRegistryRecord provider ensName key = some s → s ≠ [] →
        decodeAgentRegistryRecord s = Except.ok d →
        loadAgentRegistryRecord provider ensName chainId (jsOfString "eip155") =
          Except.ok (some { d with chainReference := chainId })) := by
  obtain ⟨seg, hkey, -⟩ := buildKey_ok h0 hb
  have hload := load_unfold provider ensName hkey
  have h1 : fetchAgentRegistryRecord provider ensName (jsOfString "agent-registry:" ++ seg)
      = none →
      loadAgentRegistryRecord provider ensName chainId (jsOfString "eip155") =
        Except.ok none := by
    intro hf
    rw [hload, hf]
  have h2 : fetchAgentRegistryRecord provider ensName (jsOfString "agent-registry:" ++ seg)
      = some [] →
      loadAgentRegistryRecord provider ensName chainId (jsOfString "eip155") =
        Except.ok none := by
    intro hf
    rw [hload, hf]
    rfl
  have h3 : ∀ s err,
      fetchAgentRegistryRecord provider ensName (jsOfString "agent-registry:" ++ seg)
        = some s → s ≠ [] → decodeAgentRegistryRecord s = Except.error err →
      loadAgentRegistryRecord provider ensName chainId (jsOfString "eip155") =
        Except.ok none := by
    intro s err hf hs hd
    rw [hload, hf]
    show (if s = [] then Except.ok none
      else
        match decodeAgentRegistryRecord s with
        | Except.error _ => Except.ok none
        | Except.ok decoded =>
          Except.ok (some { decoded with chainReference := chainId })) = Except.ok none
    rw [if_neg hs, hd]
  have h4 : ∀ s d,
      fetchAgentRegistryRecord provider ensName (jsOfString "agent-registry:" ++ seg)
        = some s → s ≠ [] → decodeAgentRegistryRecord s = Except.ok d →
      loadAgentRegistryRecord provider ensName chainId (jsOfString "eip155") =
        Except.ok (some { d with chainReference := chainId }) := by
    intro s d hf hs hd
    rw [hload, hf]
    show (if s = [] then Except.ok none
      else
        match decodeAgentRegistryRecord s with
        | Except.error _ => Except.ok none
        | Except.ok decoded =>
          Except.ok (some { decoded with chainReference := chainId })) =
      Except.ok (some { d with chainReference := chainId })
    rw [if_neg hs, hd]
  have hex : ∃ o, loadAgentRegistryRecord provider ensName chainId
      (jsOfString "eip155") = Except.ok o := by
    rcases hf : fetchAgentRegistryRecord provider ensName
        (jsOfString "agent-registry:" ++ seg) with _ | s
    · exact ⟨none, h1 hf⟩
    · by_cases hs : s = []
      · subst hs
        exact ⟨none, h2 hf⟩
      · rcases hd : decodeAgentRegistryRecord s with e | d
        · exact ⟨none, h3 s e hf hs hd⟩
        · exact ⟨_, h4 s d hf hs hd⟩
  exact ⟨_, hkey, hex, h1, h2, h3, h4⟩

/-! ## Verification-operation facts -/

theorem parseAgentId_nonneg {s : JSString} {c t : Int}
    (h : parseAgentId s = Except.ok (c, t)) : 0 ≤ c ∧ 0 ≤ t := by
  rw [parseAgentId] at h
  split at h
  · split at h
    · rw [Except.ok.injEq, Prod.mk.injEq] at h
      exact ⟨h.1 ▸ Int.natCast_nonneg _, h.2 ▸ Int.natCast_nonneg _⟩
    · simp at h
  · simp at h

theorem verifyENSName_unfold (sdk : SDKWorld) (st : AgentState)
    {ensName aid : JSString} (hens : st.ensEndpoint = some ensName)
    (haid : st.agentId = some aid) (hne : ensName ≠ []) (hna : aid ≠ []) :
    verifyENSName sdk st =
      (match parseAgentId aid with
       | Except.error _ => (Except.ok false, false)
       | Except.ok (chainId, tokenId) =>
         match loadAgentRegistryRecord sdk.provider ensName chainId
             (jsOfString "eip155") with
         | Except.error e => (Except.error e, false)
         | Except.ok none => (Except.ok false, false)
         | Except.ok (some record) =>
           match sdk.registryAddress with
           | Except.error _ => (Except.ok false, true)
           | Except.ok registryAddress =>
             (recordMatchesAgent record
               { chainId := chainId, registryAddress := registryAddress,
                 agentId := tokenId }, true)) := by
  rw [verifyENSName, hens, haid]
  show (if ensName = [] ∨ aid = [] then ((Except.ok false : Except String Bool), false)
    else _) = _
  rw [if_neg (by simp [hne, hna])]

theorem verifyENSName_parsed (sdk : SDKWorld) (st : AgentState)
    {ensName aid : JSString} {chainId tokenId : Int}
    (hens : st.ensEndpoint = some ensName) (haid : st.agentId = some aid)
    (hne : ensName ≠ []) (hna : aid ≠ [])
    (hp : parseAgentId aid = Except.ok (chainId, tokenId)) :
    verifyENSName sdk st =
      (match loadAgentRegistryRecord sdk.provider ensName chainId
          (jsOfString "eip155") with
       | Except.error e => (Except.error e, false)
       | Except.ok none => (Except.ok false, false)
       | Except.ok (some record) =>
         match sdk.registryAddress with
         | Except.error _ => (Except.ok false, true)
         | Except.ok registryAddress =>
           (recordMatchesAgent record
             { chainId := chainId, registryAddress := registryAddress,
               agentId := tokenId }, true)) := by
  rw [verifyENSName_unfold sdk st hens haid hne hna, hp]

theorem load_cases (provider : Provider) (ensName : JSString) {chainId : Int}
    (h0 : 0 ≤ chainId) (hb : chainId < 2 ^ 2040) :
    loadAgentRegistryRecord provider ensName chainId (jsOfString "eip155") =
      Except.ok none ∨
    ∃ d, loadAgentRegistryRecord provider ensName chainId (jsOfString "eip155") =
      Except.ok (some d) := by
  obtain ⟨seg, hkey, -⟩ := buildKey_ok h0 hb
  have hload := load_unfold provider ensName hkey
  rcases hf : fetchAgentRegistryRecord provider ensName
      (jsOfString "agent-registry:" ++ seg) with _ | s
  · left
    rw [hload, hf]
  · by_cases hs : s = []
    · left
      subst hs
      rw [hload, hf]
      rfl
    · rcases hd : decodeAgentRegistryRecord s with e | d
      · left
        rw [hload, hf]
        show (if s = [] then Except.ok none
          else
            match decodeAgentRegistryRecord s with
            | Except.error _ => Except.ok none
            | Except.ok decoded =>
              Except.ok (some { decoded with chainReference := chainId })) =
          Except.ok none
        rw [if_neg hs, hd]
      · right
        refine ⟨{ d with chainReference := chainId }, ?_⟩
        rw [hload, hf]
        show (if s = [] then Except.ok none
          else
            match decodeAgentRegistryRecord s with
            | Except.error _ => Except.ok none
            | Except.ok decoded =>
              Except.ok (some { decoded with chainReference := chainId })) =
          Except.ok (some { d with chainReference := chainId })
        rw [if_neg hs, hd]

theorem fetch_of_resolver_absent {provider : Provider}
    (hres : ∀ nm, provider.getResolver nm = Except.ok none ∨
      ∃ e, provider.getResolver nm = Except.error e) :
    ∀ ensName key, fetchAgentRegistryRecord provider ensName key = none := by
  intro ensName key
  rw [fetchAgentRegistryRecord]
  rcases hres ensName with h | ⟨e, h⟩
  · rw [h]
  · rw [h]

/-- C6: whenever the provider's resolver lookup yields null or throws,
`Agent.verifyENSName` returns `false` and the identity-registry address
lookup is never invoked during the call (the second component of the
instrumented result records that invocation). -/
theorem C6_missing_resolver (sdk : SDKWorld) (st : AgentState)
    (hres : ∀ nm, sdk.provider.getResolver nm = Except.ok none ∨
      ∃ e, sdk.provider.getResolver nm = Except.error e)
    (hbound : ∀ aid chainId tokenId, st.agentId = some aid →
      parseAgentId aid = Except.ok (chainId, tokenId) → chainId < 2 ^ 2040) :
    verifyENSName sdk st = (Except.ok false, false) := by
  have hfetch := fetch_of_resolver_absent hres
  rcases hens : st.ensEndpoint with _ | ensName
  · rw [verifyENSName, hens]
  · rcases haid : st.agentId with _ | aid
    · rw [verifyENSName, hens, haid]
    · by_cases hne : ensName = []
      · rw [verifyENSName, hens, haid]
        show (if ensName = [] ∨ aid = [] then
          ((Except.ok false : Except String Bool), false) else _) = _
        rw [if_pos (Or.inl hne)]
      · by_cases hna : aid = []
        · rw [verifyENSName, hens, haid]
          show (if ensName = [] ∨ aid = [] then
            ((Except.ok false : Except String Bool), false) else _) = _
          rw [if_pos (Or.inr hna)]
        · rcases hp : parseAgentId aid with e | ⟨chainId, tokenId⟩
          · rw [verifyENSName_unfold sdk st hens haid hne hna, hp]
          · have h0 := (parseAgentId_nonneg hp).1
            have hb := hbound aid chainId tokenId haid hp
            obtain ⟨seg, hkey, -⟩ := buildKey_ok h0 hb
            have hload : loadAgentRegistryRecord sdk.provider ensName chainId
                (jsOfString "eip155") = Except.ok none := by
              rw [load_unfold sdk.provider ensName hkey, hfetch]
            rw [verifyENSName_parsed sdk st hens haid hne hna hp, hload]

/-- C9: a resolver whose text lookup succeeds with the empty string makes the
fetcher return the empty string (not null), yet the loader treats that falsy
value as absence and yields no record, so the top-level verification returns
`false` (without invoking the registry-address lookup). -/
theorem C9_empty_text (provider : Provider) (resolver : Resolver)
    (hres : ∀ nm, provider.getResolver nm = Except.ok (some resolver))
    (htext : ∀ k, resolver.getText k = Except.ok (some [])) :
    (∀ ensName key, fetchAgentRegistryRecord provider ensName key = some []) ∧
    (∀ ensName (chainId : Int), 0 ≤ chainId → chainId < 2 ^ 2040 →
      loadAgentRegistryRecord provider ensName chainId (jsOfString "eip155") =
        Except.ok none) ∧
    (∀ (registryAddress : Except String JSString) (st : AgentState)
      (ensName aid : JSString) (chainId tokenId : Int),
      st.ensEndpoint = some ensName → ensName ≠ [] →
      st.agentId = some aid → aid ≠ [] →
      parseAgentId aid = Except.ok (chainId, tokenId) → chainId < 2 ^ 2040 →
      verifyENSName { provider := provider, registryAddress := registryAddress } st =
        (Except.ok false, false)) := by
  have hfetch : ∀ ensName key,
      fetchAgentRegistryRecord provider ensName key = some [] := by
    intro ensName key
    rw [fetchAgentRegistryRecord]
    rw [hres ensName]
    show (match resolver.getText (key.map toLowerCode) with
      | Except.error _ => none
      | Except.ok text => text) = some []
    rw [htext]
  have hloadnone : ∀ ensName (chainId : Int), 0 ≤ chainId → chainId < 2 ^ 2040 →
      loadAgentRegistryRecord provider ensName chainId (jsOfString "eip155") =
        Except.ok none := by
    intro ensName chainId h0 hb
    obtain ⟨seg, hkey, -⟩ := buildKey_ok h0 hb
    rw [load_unfold provider ensName hkey, hfetch]
    rfl
  refine ⟨hfetch, hloadnone, ?_⟩
  intro registryAddress st ensName aid chainId tokenId hens hne haid hna hp hb
  have h0 := (parseAgentId_nonneg hp).1
  rw [verifyENSName_parsed _ st hens haid hne hna hp,
    hloadnone ensName chainId h0 hb]

/-- C1 amended: whenever the SDK registry-address lookup either throws or
returns a string the checksum normalizer accepts, `Agent.verifyENSName` only
ever produces `true` or `false`; the one uncaught exception path is a
successfully loaded record combined with an invalid registry address string,
where the matcher's checksum normalization throws (see the counterexample). -/
theorem C1_two_outcomes (sdk : SDKWorld) (st : AgentState)
    (hreg : ∀ s, sdk.registryAddress = Except.ok s →
      ∃ a, getAddress s = Except.ok a)
    (hbound : ∀ aid chainId tokenId, st.agentId = some aid →
      parseAgentId aid = Except.ok (chainId, tokenId) → chainId < 2 ^ 2040) :
    (verifyENSName sdk st).1 = Except.ok true ∨
      (verifyENSName sdk st).1 = Except.ok false := by
  rcases hens : st.ensEndpoint with _ | ensName
  · right
    rw [verifyENSName, hens]
  · rcases haid : st.agentId with _ | aid
    · right
      rw [verifyENSName, hens, haid]
    · by_cases hne : ensName = []
      · right
        rw [verifyENSName, hens, haid]
        show (if ensName = [] ∨ aid = [] then
          ((Except.ok false : Except String Bool), false) else _).1 = _
        rw [if_pos (Or.inl hne)]
      · by_cases hna : aid = []
        · right
          rw [verifyENSName, hens, haid]
          show (if ensName = [] ∨ aid = [] then
            ((Except.ok false : Except String Bool), false) else _).1 = _
          rw [if_pos (Or.inr hna)]
        · rcases hp : parseAgentId aid with e | ⟨chainId, tokenId⟩
          · right
            rw [verifyENSName_unfold sdk st hens haid hne hna, hp]
          · have h0 := (parseAgentId_nonneg hp).1
            have hb := hbound aid chainId tokenId haid hp
            rw [verifyENSName_parsed sdk st hens haid hne hna hp]
            rcases load_cases sdk.provider ensName h0 hb with hload | ⟨d, hload⟩
            · right
              rw [hload]
            · rw [hload]
              rcases hra : sdk.registryAddress with e2 | s
              · right
                rfl
              · obtain ⟨a, hga⟩ := hreg s hra
                show recordMatchesAgent d
                    { chainId := chainId, registryAddress := s, agentId := tokenId } =
                    Except.ok true ∨
                  recordMatchesAgent d
                    { chainId := chainId, registryAddress := s, agentId := tokenId } =
                    Except.ok false
                rw [recordMatchesAgent_spec d
                  { chainId := chainId, registryAddress := s, agentId := tokenId } hga]
                by_cases hP : d.version = 1 ∧ d.chainType = 0 ∧
                    d.chainReference = chainId ∧ a = d.address ∧ d.agentId = tokenId
                · left
                  simp [hP]
                · right
                  simp [hP]

/-! ## Case handling of the address and payload segments -/

theorem map_toLowerCode_idem (l : JSString) :
    (l.map toLowerCode).map toLowerCode = l.map toLowerCode := by
  rw [List.map_map]
  exact List.map_congr_left fun c _ => toLowerCode_toLowerCode c

theorem hasUpper_lowered (h : JSString) :
    hasUpperHexLetter (48 :: 120 :: h.map toLowerCode) = false := by
  simp only [hasUpperHexLetter, List.any_eq_false, decide_eq_true_eq]
  intro c hc
  rcases List.mem_cons.mp hc with rfl | hc
  · omega
  rcases List.mem_cons.mp hc with rfl | hc
  · omega
  rw [List.mem_map] at hc
  obtain ⟨d, -, rfl⟩ := hc
  exact toLowerCode_not_upperLetter d

theorem hasLower_uppered {h : JSString} (hhex : ∀ c ∈ h, isHexDigitCode c = true) :
    hasLowerHexLetter (48 :: 120 :: h.map toUpperCode) = false := by
  simp only [hasLowerHexLetter, List.any_eq_false, decide_eq_true_eq]
  intro c hc
  rcases List.mem_cons.mp hc with rfl | hc
  · omega
  rcases List.mem_cons.mp hc with rfl | hc
  · omega
  rw [List.mem_map] at hc
  obtain ⟨d, hd, rfl⟩ := hc
  exact toUpperCode_not_lowerLetter_of_hex (hhex d hd)

/-- C10: the decoder does not require the address segment to be in EIP-55
checksum case: an all-lowercase or all-uppercase rendering of the same 20
bytes is accepted by the checksum normalizer it calls and normalized to the
same checksum-cased form; only a mixed-case address text whose casing fails
the checksum is rejected; and the agent-id payload segment is lowercased
before parsing, so decode results are invariant under the payload's case. -/
theorem C10_case_handling :
    (∀ h : JSString, h.length = 40 → (∀ c ∈ h, isHexDigitCode c = true) →
      getAddress (48 :: 120 :: h.map toLowerCode) =
        Except.ok (getChecksumAddress (48 :: 120 :: h.map toLowerCode))) ∧
    (∀ h : JSString, h.length = 40 → (∀ c ∈ h, isHexDigitCode c = true) →
      getAddress (48 :: 120 :: h.map toUpperCode) =
        Except.ok (getChecksumAddress (48 :: 120 :: h.map toLowerCode))) ∧
    (∀ s : JSString, s.length = 42 → s.take 2 = [48, 120] →
      (∀ c ∈ s.drop 2, isHexDigitCode c = true) →
      hasUpperHexLetter s = true → hasLowerHexLetter s = true →
      getChecksumAddress s ≠ s →
      getAddress s = Except.error "bad address checksum") ∧
    (∀ v : JSString, decodeAgentRegistryRecord v =
      decodeAgentRegistryRecord (v.take 44 ++ (v.drop 44).map toLowerCode)) := by
  refine ⟨?_, ?_, ?_, ?_⟩
  · intro h hlen hhex
    have hm : matchesAddrRegex (48 :: 120 :: h.map toLowerCode) = true :=
      matchesAddrRegex_cons (by simp [hlen]) fun c hc => by
        rw [List.mem_map] at hc
        obtain ⟨d, hd, rfl⟩ := hc
        exact isHex_of_isLowerHex (isLowerHex_toLowerCode (hhex d hd))
    rw [getAddress, if_pos hm]
    dsimp only
    rw [if_pos (show (48 :: 120 :: h.map toLowerCode).take 2 = [48, 120] from rfl)]
    rw [if_neg (by simp [hasUpper_lowered h])]
  · intro h hlen hhex
    have hm : matchesAddrRegex (48 :: 120 :: h.map toUpperCode) = true :=
      matchesAddrRegex_cons (by simp [hlen]) fun c hc => by
        rw [List.mem_map] at hc
        obtain ⟨d, hd, rfl⟩ := hc
        exact isHex_toUpperCode (hhex d hd)
    rw [getAddress, if_pos hm]
    dsimp only
    rw [if_pos (show (48 :: 120 :: h.map toUpperCode).take 2 = [48, 120] from rfl)]
    rw [if_neg (by simp [hasLower_uppered hhex])]
    rw [Except.ok.injEq]
    refine getChecksumAddress_lower_congr ?_
    simp only [List.map_cons, List.map_map]
    refine congrArg (fun l => toLowerCode 48 :: toLowerCode 120 :: l) ?_
    refine List.map_congr_left fun c hc => ?_
    simp only [Function.comp_apply]
    rw [toLowerCode_toUpperCode_of_hex (hhex c hc), toLowerCode_toLowerCode]
  · intro s hlen htake hhex hup hlow hcs
    have hform : s = 48 :: 120 :: s.drop 2 := by
      conv_lhs => rw [← List.take_append_drop 2 s]
      rw [htake]
      rfl
    have hm : matchesAddrRegex s = true := by
      rw [hform]
      exact matchesAddrRegex_cons (by simp [hlen]) fun c hc => hhex c hc
    rw [getAddress, if_pos hm]
    dsimp only
    rw [if_pos htake]
    rw [if_pos (by simp [hup, hlow, hcs])]
  · intro v
    by_cases hv : v.length ≤ 44
    · rw [List.take_of_length_le hv, List.drop_eq_nil_of_le hv]
      rw [List.map_nil, List.append_nil]
    · push_neg at hv
      have htl : (v.take 44).length = 44 := by
        rw [List.length_take]
        omega
      have hwlen : (v.take 44 ++ (v.drop 44).map toLowerCode).length = v.length := by
        rw [List.length_append, List.length_map, List.length_drop, htl]
        omega
      have htk2 : (v.take 44 ++ (v.drop 44).map toLowerCode).take 2 = v.take 2 := by
        rw [List.take_append_of_le_length (by omega), List.take_take]
        try norm_num
      have htk42 : (v.take 44 ++ (v.drop 44).map toLowerCode).take 42 = v.take 42 := by
        rw [List.take_append_of_le_length (by omega), List.take_take]
        try norm_num
      have hsl : ((v.take 44 ++ (v.drop 44).map toLowerCode).drop 42).take 2 =
          (v.drop 42).take 2 := by
        rw [List.drop_append_of_le_length (by omega)]
        rw [List.take_append_of_le_length (by rw [List.length_drop, htl]; try omega)]
        rw [List.drop_take]
        try norm_num
      have hd44 : (v.take 44 ++ (v.drop 44).map toLowerCode).drop 44 =
          (v.drop 44).map toLowerCode := by
        rw [List.drop_append_of_le_length (by omega : 44 ≤ (v.take 44).length)]
        rw [List.drop_eq_nil_of_le (le_of_eq htl), List.nil_append]
      rw [decodeAgentRegistryRecord, decodeAgentRegistryRecord]
      rw [htk2, hwlen, htk42, hsl, hd44, map_toLowerCode_idem]

/-! ## Concrete instances -/

theorem nat_small_lt_pow2040 {n : Nat} (h : n < 256) : n < 2 ^ 2040 := by
  calc n < 256 := h
  _ = 2 ^ 8 := by norm_num
  _ ≤ 2 ^ 2040 := Nat.pow_le_pow_right (by norm_num) (by norm_num)

theorem int_small_lt_pow2040 {c : Int} (h : c < 256) : c < 2 ^ 2040 := by
  calc c < 256 := h
  _ = 2 ^ 8 := by norm_num
  _ ≤ 2 ^ 2040 := pow_le_pow_right₀ (by norm_num) (by norm_num)

set_option maxRecDepth 1000000 in
/-- C1 counterexample: with a well-formed record on the resolver and an SDK
registry-address lookup that returns a string that is not a valid address,
the matcher's checksum normalization of the expected address throws, and
`Agent.verifyENSName` propagates that exception instead of returning a
boolean (the registry lookup itself succeeded, so nothing catches it). -/
theorem C1_counterexample :
    verifyENSName
      { provider := { getResolver := fun _ => Except.ok (some
          { getText := fun _ => Except.ok (some (jsOfString
              "0x111111111111111111111111111111111111111100")) }) },
        registryAddress := Except.ok (jsOfString "nope") }
      { ensEndpoint := some (jsOfString "agent.eth"),
        agentId := some (jsOfString "1:0") } =
      (Except.error "invalid address", true) := by decide

set_option maxRecDepth 1000000 in
theorem C1_two_outcomes_witness :
    (verifyENSName
      { provider := { getResolver := fun _ => Except.ok (some
          { getText := fun _ => Except.ok (some (jsOfString
              "0x111111111111111111111111111111111111111100")) }) },
        registryAddress := Except.ok (jsOfString
          "0x1111111111111111111111111111111111111111") }
      { ensEndpoint := some (jsOfString "agent.eth"),
        agentId := some (jsOfString "1:0") }).1 = Except.ok true ∨
    (verifyENSName
      { provider := { getResolver := fun _ => Except.ok (some
          { getText := fun _ => Except.ok (some (jsOfString
              "0x111111111111111111111111111111111111111100")) }) },
        registryAddress := Except.ok (jsOfString
          "0x1111111111111111111111111111111111111111") }
      { ensEndpoint := some (jsOfString "agent.eth"),
        agentId := some (jsOfString "1:0") }).1 = Except.ok false :=
  C1_two_outcomes _ _
    (fun s hs => by
      rw [Except.ok.injEq] at hs
      subst hs
      exact ⟨jsOfString "0x1111111111111111111111111111111111111111", by decide⟩)
    (fun aid c t haid hp => by
      rw [Option.some.injEq] at haid
      subst haid
      rw [show parseAgentId (jsOfString "1:0") = Except.ok (1, 0) from by decide] at hp
      rw [Except.ok.injEq, Prod.mk.injEq] at hp
      exact lt_of_eq_of_lt hp.1.symm (int_small_lt_pow2040 (by norm_num)))

set_option maxRecDepth 1000000 in
theorem C2_match_conjunctive_witness :
    recordMatchesAgent
      { version := 1, chainType := 0, chainReference := 5,
        address := jsOfString "0x1111111111111111111111111111111111111111",
        agentId := 7 }
      { chainId := 5,
        registryAddress := jsOfString "0x1111111111111111111111111111111111111111",
        agentId := 7 } = Except.ok true :=
  (C2_match_conjunctive _ _ (show getAddress (jsOfString
      "0x1111111111111111111111111111111111111111") = Except.ok (jsOfString
      "0x1111111111111111111111111111111111111111") by decide)).1.mpr (by decide)

set_option maxRecDepth 1000000 in
theorem C3_round_trip_witness :
    ∃ v, encodeAgentRegistryRecord
        (jsOfString "0x1111111111111111111111111111111111111111")
        ((167 : Nat) : Int) = Except.ok v ∧
      ∃ r, decodeAgentRegistryRecord v = Except.ok r ∧
        r.address = jsOfString "0x1111111111111111111111111111111111111111" ∧
        r.agentId = ((167 : Nat) : Int) :=
  C3_round_trip (show getAddress (jsOfString
      "0x1111111111111111111111111111111111111111") = Except.ok (jsOfString
      "0x1111111111111111111111111111111111111111") by decide)
    (nat_small_lt_pow2040 (by norm_num))

set_option maxRecDepth 1000000 in
theorem C4_length_prefix_witness :
    ∃ v, encodeAgentRegistryRecord
        (jsOfString "0x1111111111111111111111111111111111111111")
        ((167 : Nat) : Int) = Except.ok v ∧
      jsParseInt16 ((v.drop 42).take 2) =
        some (((if (167 : Nat) = 0 then 1 else minBeByteLen 167) : Nat) : Int) ∧
      v.drop 44 = bytesToHexChars (if (167 : Nat) = 0 then [0] else natBeBytes 167) :=
  C4_length_prefix (show getAddress (jsOfString
      "0x1111111111111111111111111111111111111111") = Except.ok (jsOfString
      "0x1111111111111111111111111111111111111111") by decide)
    (nat_small_lt_pow2040 (by norm_num))

theorem C5_invalid_length_witness :
    (decodeAgentRegistryRecord
        (jsOfString "0x00000000000000000000000000000000000000000x") =
        Except.error "Invalid agent ID length" ↔
      badLenSlice (((jsOfString
        "0x00000000000000000000000000000000000000000x").drop 42).take 2) = true) :=
  C5_invalid_length (by decide) (by decide)

theorem C6_missing_resolver_witness :
    verifyENSName
      { provider := { getResolver := fun _ => Except.ok none },
        registryAddress := Except.ok (jsOfString
          "0x1111111111111111111111111111111111111111") }
      { ensEndpoint := some (jsOfString "agent.eth"),
        agentId := some (jsOfString "1:2") } = (Except.ok false, false) :=
  C6_missing_resolver _ _ (fun _ => Or.inl rfl)
    (fun aid c t haid hp => by
      rw [Option.some.injEq] at haid
      subst haid
      rw [show parseAgentId (jsOfString "1:2") = Except.ok (1, 2) from by decide] at hp
      rw [Except.ok.injEq, Prod.mk.injEq] at hp
      exact lt_of_eq_of_lt hp.1.symm (int_small_lt_pow2040 (by norm_num)))

theorem C7_loader_fail_closed_witness :
    ∃ o, loadAgentRegistryRecord { getResolver := fun _ => Except.ok none }
      (jsOfString "agent.eth") 1 (jsOfString "eip155") = Except.ok o := by
  obtain ⟨key, hkey, hex, h1, h2, h3, h4⟩ :=
    @C7_loader_fail_closed { getResolver := fun _ => Except.ok none }
      (jsOfString "agent.eth") 1 (by norm_num) (int_small_lt_pow2040 (by norm_num))
  exact hex

theorem C8_key_builder_witness :
    ∃ seg, buildAgentRegistryRecordKey 1 (jsOfString "eip155") =
        Except.ok (jsOfString "agent-registry:" ++ seg) ∧
      (∀ c ∈ seg, isLowerHexCode c = true) ∧ seg.take 2 ≠ [48, 120] :=
  C8_key_builder.1 1 (by norm_num) (int_small_lt_pow2040 (by norm_num))

theorem C9_empty_text_witness :
    fetchAgentRegistryRecord
      { getResolver := fun _ => Except.ok (some
        { getText := fun _ => Except.ok (some []) }) }
      (jsOfString "agent.eth") (jsOfString "agent-registry:00010000010100") =
      some [] :=
  (C9_empty_text _ { getText := fun _ => Except.ok (some []) }
    (fun _ => rfl) (fun _ => rfl)).1
    (jsOfString "agent.eth") (jsOfString "agent-registry:00010000010100")

theorem C10_case_handling_witness :
    getAddress (48 :: 120 ::
        (jsOfString "1111111111111111111111111111111111111111").map toLowerCode) =
      Except.ok (getChecksumAddress (48 :: 120 ::
        (jsOfString "1111111111111111111111111111111111111111").map toLowerCode)) :=
  C10_case_handling.1 (jsOfString "1111111111111111111111111111111111111111")
    (by decide) (by decide)

end AgentEns
